import Mathlib

/-!
Verification development for the `dedup-webset` repository.

The definitions below are a shallow embedding of the backend deduplication
service (`backend/dedup/dedupService.js`, current revision: the copy that
tracks `processedIds` and persists Mongo counters), of the streaming server
(`server.js`) and of the counter-update logic.  JavaScript strings are
modelled as Lean `String`s, JS `Map`/`Set` as insertion-ordered association
lists, JS numbers as `ℚ`, and the external collaborators (the `tldts` URL
parser, the `natural` Jaro–Winkler implementation, the vector service and
the LLM) as explicit oracle parameters, since their code lives outside this
repository.  Absent (`undefined`) string fields are modelled as `none`;
JavaScript truthiness of a string field is `truthyS`.

The regular-expression pipelines (`_cleanText`, `_normalizeEntityTitle`)
are embedded via a small backtracking regex engine that reproduces the
JavaScript semantics used by the service: leftmost match, greedy
quantifiers with backtracking, left-biased alternation, the `i` flag via
case folding, global replacement scanning the original string, and the
word-boundary / anchor rules of non-multiline JS regexes.
-/

namespace DedupWebset

/-- Truthiness of an optional JS string field: `undefined`, `null` and the
empty string are falsy. -/
def truthyS : Option String → Bool
  | none => false
  | some s => s ≠ ""

/-- JS `a || b` on two optional string fields: returns the first truthy
operand, otherwise the second operand. -/
def jsOrS (a b : Option String) : Option String :=
  if truthyS a then a else b

/-- Lowercase every character of a string, modelling JS `toLowerCase` on the
ASCII inputs the service handles. -/
def lowerStr (s : String) : String :=
  String.mk (s.toList.map Char.toLower)

/-- The whitespace characters matched by the JS `\s` class (the ones that can
occur in the service's inputs). -/
def wsChars : List Char :=
  [' ', '\t', '\n', '\x0d', '\x0b', '\x0c', Char.ofNat 0xa0, Char.ofNat 0xfeff,
   Char.ofNat 0x2028, Char.ofNat 0x2029]

/-- JS `String.prototype.trim`: strip the `\s` characters from both ends. -/
def jsTrim (s : String) : String :=
  String.mk (((s.toList.dropWhile (wsChars.contains ·)).reverse.dropWhile
      (wsChars.contains ·)).reverse)

/-- JS word character (`\w`): ASCII letters, digits and underscore. -/
def isWordChar (c : Char) : Bool :=
  (('a' ≤ c ∧ c ≤ 'z') ∨ ('A' ≤ c ∧ c ≤ 'Z') ∨ ('0' ≤ c ∧ c ≤ '9') ∨ c = '_')

/-- Word-character test on the optional character before/after a position;
positions outside the string count as non-word. -/
def isWordO : Option Char → Bool
  | none => false
  | some c => isWordChar c

/-- Regex abstract syntax covering the constructs used by the service's
patterns: literals, character classes (with ranges and negation),
concatenation, alternation, greedy star, the `.` wildcard, and the
zero-width assertions `^`, `$`, `\b`. -/
inductive RE where
  | eps
  | dot
  | lit (c : Char)
  | cls (neg : Bool) (cs : List Char) (ranges : List (Char × Char))
  | seq (a b : RE)
  | alt (a b : RE)
  | star (a : RE)
  | bol
  | eol
  | wb
deriving Repr, DecidableEq

/-- Literal match, honouring the case-insensitive flag. -/
def litMatches (ci : Bool) (d c : Char) : Bool :=
  if ci then d.toLower = c.toLower else d = c

/-- Raw membership of a character in a class. -/
def clsMember (cs : List Char) (ranges : List (Char × Char)) (c : Char) : Bool :=
  cs.contains c ∨ ranges.any (fun r => r.1 ≤ c ∧ c ≤ r.2)

/-- Class match with negation and case folding. -/
def clsMatches (ci : Bool) (neg : Bool) (cs : List Char) (ranges : List (Char × Char))
    (c : Char) : Bool :=
  let hit :=
    if ci then clsMember cs ranges c ∨ clsMember cs ranges c.toLower ∨
      clsMember cs ranges c.toUpper
    else clsMember cs ranges c
  if neg then ¬ hit else hit

/-- JS `.` (without the `s` flag) matches any character except line
terminators. -/
def dotMatches (c : Char) : Bool :=
  ¬ (c = '\n' ∨ c = '\x0d' ∨ c = Char.ofNat 0x2028 ∨ c = Char.ofNat 0x2029)

/-- Greedy iteration of an already-compiled matcher: consuming branches come
first (each must consume at least one character, as every starred
subexpression in the service's patterns does), the empty iteration last.
The fuel bounds the number of iterations by the input length. -/
def starLoop (f : Option Char → List Char → List (Option Char × List Char)) :
    Nat → Option Char → List Char → List (Option Char × List Char)
  | 0, p, l => [(p, l)]
  | n + 1, p, l =>
      (((f p l).filter (fun s => s.2.length < l.length)).flatMap
        (fun s => starLoop f n s.1 s.2)) ++ [(p, l)]

/-- All ways a regex can match a prefix of `l`, as `(last consumed char,
remaining suffix)` pairs in JS backtracking priority order (head = the match
JS commits to).  `p` is the character immediately before the current
position, used by `^` and `\b`. -/
def suffixes (ci : Bool) : RE → Option Char → List Char → List (Option Char × List Char)
  | .eps, p, l => [(p, l)]
  | .dot, _, [] => []
  | .dot, _, c :: t => if dotMatches c then [(some c, t)] else []
  | .lit _, _, [] => []
  | .lit d, _, c :: t => if litMatches ci d c then [(some c, t)] else []
  | .cls _ _ _, _, [] => []
  | .cls neg cs rs, _, c :: t => if clsMatches ci neg cs rs c then [(some c, t)] else []
  | .seq a b, p, l => (suffixes ci a p l).flatMap (fun s => suffixes ci b s.1 s.2)
  | .alt a b, p, l => suffixes ci a p l ++ suffixes ci b p l
  | .star a, p, l => starLoop (suffixes ci a) (l.length + 1) p l
  | .bol, p, l => if p.isNone then [(p, l)] else []
  | .eol, p, l => if l.isEmpty then [(p, l)] else []
  | .wb, p, l => if isWordO p ≠ isWordO l.head? then [(p, l)] else []

/-- Length of the match JS commits to at the current position, if any. -/
def matchLen (ci : Bool) (r : RE) (p : Option Char) (l : List Char) : Option Nat :=
  match suffixes ci r p l with
  | [] => none
  | s :: _ => some (l.length - s.2.length)

/-- The character preceding the continuation point after consuming
`consumed` characters. -/
def lastCharOf (p : Option Char) (consumed : List Char) : Option Char :=
  match consumed.getLast? with
  | some c => some c
  | none => p

/-- Global replacement (`.replace(/…/g, repl)`): scan the original string
left to right, replacing each non-overlapping leftmost match; an empty match
copies the current character and advances by one, as JS does. -/
def replaceAllAux (ci : Bool) (r : RE) (repl : List Char) :
    Nat → Option Char → List Char → List Char
  | 0, _, l => l
  | fuel + 1, p, l =>
      match matchLen ci r p l with
      | some n =>
          if n = 0 then
            match l with
            | [] => repl
            | c :: t => repl ++ c :: replaceAllAux ci r repl fuel (some c) t
          else
            repl ++ replaceAllAux ci r repl fuel (lastCharOf p (l.take n)) (l.drop n)
      | none =>
          match l with
          | [] => []
          | c :: t => c :: replaceAllAux ci r repl fuel (some c) t

/-- First-match-only replacement (`.replace(/…/, repl)` without `g`). -/
def replaceFirstAux (ci : Bool) (r : RE) (repl : List Char) :
    Nat → Option Char → List Char → List Char
  | 0, _, l => l
  | fuel + 1, p, l =>
      match matchLen ci r p l with
      | some n => repl ++ l.drop n
      | none =>
          match l with
          | [] => []
          | c :: t => c :: replaceFirstAux ci r repl fuel (some c) t

/-- String-level global replace. -/
def reReplaceAll (ci : Bool) (r : RE) (repl : String) (s : String) : String :=
  String.mk (replaceAllAux ci r repl.toList (s.toList.length + 1) none s.toList)

/-- String-level first-match replace. -/
def reReplaceFirst (ci : Bool) (r : RE) (repl : String) (s : String) : String :=
  String.mk (replaceFirstAux ci r repl.toList (s.toList.length + 1) none s.toList)

/-- Concatenation of a list of regexes. -/
def rcat (l : List RE) : RE := l.foldr .seq .eps

/-- Left-biased alternation of a list of regexes (empty list never matches). -/
def ralt : List RE → RE
  | [] => .cls false [] []
  | [r] => r
  | r :: rs => .alt r (ralt rs)

/-- Literal string as a regex. -/
def rstr (s : String) : RE := rcat (s.toList.map RE.lit)

/-- Greedy `?`. -/
def ropt (r : RE) : RE := .alt r .eps

/-- Greedy `+`. -/
def rplus (r : RE) : RE := .seq r (.star r)

/-- The `\s` class. -/
def wsp : RE := .cls false wsChars []

/-- `\s*`. -/
def wsStar : RE := .star wsp

/-- `\s+`. -/
def wsPlus : RE := rplus wsp

/-- The `\d` class. -/
def digitC : RE := .cls false [] [('0', '9')]

/-- `\d+`. -/
def digitPlus : RE := rplus digitC

/-- `\w` as a class. -/
def wordC : RE := .cls false ['_'] [('a', 'z'), ('A', 'Z'), ('0', '9')]

/-- `.*$` suffix used by the strip-to-end patterns. -/
def restOfLine : RE := .seq (.star .dot) .eol

/-- The apostrophe character (U+0027). -/
def apos : Char := Char.ofNat 39

/-! ### `_cleanText` -/

/-- Pattern `<[^>]*>`: HTML tags. -/
def reHtmlTag : RE := rcat [.lit '<', .star (.cls true ['>'] []), .lit '>']

/-- Pattern `&[a-zA-Z0-9#]+;`: HTML entities. -/
def reHtmlEntity : RE :=
  rcat [.lit '&', rplus (.cls false ['#'] [('a', 'z'), ('A', 'Z'), ('0', '9')]), .lit ';']

/-- Pattern `[^\w\s\-&.,()]`: characters outside the kept set. -/
def reSpecialChar : RE :=
  .cls true ('_' :: '-' :: '&' :: '.' :: ',' :: '(' :: ')' :: wsChars)
    [('a', 'z'), ('A', 'Z'), ('0', '9')]

/-- `DedupService._cleanText`: strip HTML tags and entities, drop special
characters, collapse whitespace and trim. -/
def cleanText (text : String) : String :=
  if text = "" then ""
  else
    jsTrim
      (reReplaceAll false (rplus wsp) " "
        (reReplaceAll false reSpecialChar " "
          (reReplaceAll false reHtmlEntity " "
            (reReplaceAll false reHtmlTag "" text))))

/-! ### `_normalizeEntityTitle`

One definition per `replace` step of the source pipeline, in source order. -/

/-- `(19|20)\d{2}`. -/
def reYearNum : RE := rcat [ralt [rstr "19", rstr "20"], digitC, digitC]

/-- Step 1 (case-sensitive, global):
`[(\[\-]\s*(19|20)\d{2}(\s*-\s*(19|20)\d{2})?\s*[)\]]`. -/
def reYear : RE :=
  rcat [.cls false ['(', '[', '-'] [], wsStar, reYearNum,
    ropt (rcat [wsStar, .lit '-', wsStar, reYearNum]), wsStar, .cls false [')', ']'] []]

/-- Step 2: `\s*\([^)]*(?:TV Series|Movie|Film|Book|Anime|Series|Show)[^)]*\)`. -/
def reFormatMarker : RE :=
  rcat [wsStar, .lit '(', .star (.cls true [')'] []),
    ralt [rstr "TV Series", rstr "Movie", rstr "Film", rstr "Book", rstr "Anime",
      rstr "Series", rstr "Show"],
    .star (.cls true [')'] []), .lit ')']

/-- Step 3: `\s*\(\s*TV\s*\)`. -/
def reTvBare : RE := rcat [wsStar, .lit '(', wsStar, rstr "TV", wsStar, .lit ')']

/-- Step 4: `\s*\(\s*TV\s+[^)]*\)`. -/
def reTvParen : RE :=
  rcat [wsStar, .lit '(', wsStar, rstr "TV", wsPlus, .star (.cls true [')'] []), .lit ')']

/-- Step 5: `\s*\([^)]*(?:US|UK|Japanese|English|Dub|Sub|Original)[^)]*\)`. -/
def reRegionMarker : RE :=
  rcat [wsStar, .lit '(', .star (.cls true [')'] []),
    ralt [rstr "US", rstr "UK", rstr "Japanese", rstr "English", rstr "Dub",
      rstr "Sub", rstr "Original"],
    .star (.cls true [')'] []), .lit ')']

/-- Step 6: `\s*(?:S\d+E\d+|Season\s*\d+|Ep\.?\s*\d+|Episode\s*\d+)`. -/
def reEpisodePat : RE :=
  rcat [wsStar,
    ralt [rcat [.lit 'S', digitPlus, .lit 'E', digitPlus],
      rcat [rstr "Season", wsStar, digitPlus],
      rcat [rstr "Ep", ropt (.lit '.'), wsStar, digitPlus],
      rcat [rstr "Episode", wsStar, digitPlus]]]

/-- Step 7: `\s+Episode\s+.*$`. -/
def reEpisodeTail : RE := rcat [wsPlus, rstr "Episode", wsPlus, restOfLine]

/-- Step 8: `\s+Ep\.?\s+.*$`. -/
def reEpTail : RE := rcat [wsPlus, rstr "Ep", ropt (.lit '.'), wsPlus, restOfLine]

/-- Step 9:
`\s*\b(?:Remastered|Director's\s*Cut|Extended|Revised|Special|Limited|Ultimate|Complete|Definitive)\s*(?:Edition|Version|Cut)?\b`. -/
def reEdition : RE :=
  rcat [wsStar, .wb,
    ralt [rstr "Remastered",
      rcat [rstr "Director", .lit apos, .lit 's', wsStar, rstr "Cut"],
      rstr "Extended", rstr "Revised", rstr "Special", rstr "Limited",
      rstr "Ultimate", rstr "Complete", rstr "Definitive"],
    wsStar, ropt (ralt [rstr "Edition", rstr "Version", rstr "Cut"]), .wb]

/-- `[#\d]`. -/
def hashDigit : RE := .cls false ['#'] [('0', '9')]

/-- Step 10:
`\s*(?:(?:Official|Original|Classic|Theatrical)\s+)?(?:Movie\s+)?(?:Trailer|Teaser)(?:\s*[#\d]+)?.*$`. -/
def reTrailerA : RE :=
  rcat [wsStar,
    ropt (rcat [ralt [rstr "Official", rstr "Original", rstr "Classic", rstr "Theatrical"], wsPlus]),
    ropt (rcat [rstr "Movie", wsPlus]),
    ralt [rstr "Trailer", rstr "Teaser"],
    ropt (rcat [wsStar, rplus hashDigit]), restOfLine]

/-- Step 11:
`\s*(?:Official\s+)?(?:English\s+)?(?:Dubbed\s+)?(?:Subtitled\s+)?(?:Final\s+)?(?:International\s+)?(?:Red\s*Band\s+)?(?:Exclusive\s+)?(?:New\s+)?(?:Trailer|Teaser).*$`. -/
def reTrailerB : RE :=
  rcat [wsStar,
    ropt (rcat [rstr "Official", wsPlus]), ropt (rcat [rstr "English", wsPlus]),
    ropt (rcat [rstr "Dubbed", wsPlus]), ropt (rcat [rstr "Subtitled", wsPlus]),
    ropt (rcat [rstr "Final", wsPlus]), ropt (rcat [rstr "International", wsPlus]),
    ropt (rcat [rstr "Red", wsStar, rstr "Band", wsPlus]),
    ropt (rcat [rstr "Exclusive", wsPlus]), ropt (rcat [rstr "New", wsPlus]),
    ralt [rstr "Trailer", rstr "Teaser"], restOfLine]

/-- `[\-:\|\(\[\{]`. -/
def punctOpen : RE := .cls false ['-', ':', '|', '(', '[', '{'] []

/-- Step 12: `\s*[\-:\|\(\[\{]*\s*TV\s*Spot(?:\s*[#\d]+)?.*$`. -/
def reTvSpot : RE :=
  rcat [wsStar, .star punctOpen, wsStar, rstr "TV", wsStar, rstr "Spot",
    ropt (rcat [wsStar, rplus hashDigit]), restOfLine]

/-- Step 13: `\s*[\-:\|\(\[\{]*\s*(?:Official\s*)?(?:Movie\s*)?Clip(?:\s*[#\d]+)?.*$`. -/
def reClip : RE :=
  rcat [wsStar, .star punctOpen, wsStar,
    ropt (rcat [rstr "Official", wsStar]), ropt (rcat [rstr "Movie", wsStar]),
    rstr "Clip", ropt (rcat [wsStar, rplus hashDigit]), restOfLine]

/-- Step 14: `\s*[\-:\|\(\[\{]*\s*Behind\s*the\s*Scenes.*$`. -/
def reBehind : RE :=
  rcat [wsStar, .star punctOpen, wsStar, rstr "Behind", wsStar, rstr "the",
    wsStar, rstr "Scenes", restOfLine]

/-- Step 15: `\s*[\-:\|\(\[\{]*\s*Making\s*Of.*$`. -/
def reMakingOf : RE :=
  rcat [wsStar, .star punctOpen, wsStar, rstr "Making", wsStar, rstr "Of", restOfLine]

/-- Step 16 (first match only): `^The\s+`. -/
def reLeadingThe : RE := rcat [.bol, rstr "The", wsPlus]

/-- Step 17 (first match only): `,\s*The$`. -/
def reTrailingThe : RE := rcat [.lit ',', wsStar, rstr "The", .eol]

/-- Step 18: `[:\-–—;]+` (colon, hyphen, en dash, em dash, semicolon). -/
def rePunct : RE :=
  rplus (.cls false [':', '-', Char.ofNat 0x2013, Char.ofNat 0x2014, ';'] [])

/-- `DedupService._normalizeEntityTitle`: the ordered strip/normalize
pipeline applied to entity display names. -/
def normalizeEntityTitle (title : String) : String :=
  if title = "" then ""
  else
    lowerStr (jsTrim
      (reReplaceAll false (rplus wsp) " "
        (reReplaceAll false rePunct " "
          (reReplaceFirst true reTrailingThe ""
            (reReplaceFirst true reLeadingThe ""
              (reReplaceAll true reMakingOf ""
                (reReplaceAll true reBehind ""
                  (reReplaceAll true reClip ""
                    (reReplaceAll true reTvSpot ""
                      (reReplaceAll true reTrailerB ""
                        (reReplaceAll true reTrailerA ""
                          (reReplaceAll true reEdition ""
                            (reReplaceAll true reEpTail ""
                              (reReplaceAll true reEpisodeTail ""
                                (reReplaceAll true reEpisodePat ""
                                  (reReplaceAll true reRegionMarker ""
                                    (reReplaceAll true reTvParen ""
                                      (reReplaceAll true reTvBare ""
                                        (reReplaceAll true reFormatMarker ""
                                          (reReplaceAll false reYear "" title))))))))))))))))))))

/-! ### Raw items and canonical rows -/

/-- An object-valued entry of a raw item's `properties` bag, restricted to
the fields the service reads (`url`, `website`, `name`, `title`,
`company_name`).  `none` models an absent key. -/
structure NestedObj where
  url : Option String := none
  website : Option String := none
  name : Option String := none
  title : Option String := none
  company_name : Option String := none
deriving Repr, DecidableEq

/-- The `properties` bag of a raw item: the string-valued fields the service
reads directly, plus `objs`, the object-valued entries in insertion order
(the order `Object.entries` iterates them); `properties.company` is the
entry keyed `"company"`. -/
structure Props where
  url : Option String := none
  name : Option String := none
  title : Option String := none
  id : Option String := none
  objs : List (String × NestedObj) := []
deriving Repr, DecidableEq

/-- A raw upstream item, restricted to the fields the service reads. -/
structure Item where
  id : Option String := none
  name : Option String := none
  title : Option String := none
  url : Option String := none
  source : Option String := none
  properties : Option Props := none
deriving Repr, DecidableEq

/-- `item.properties?.company?.name`. -/
def Item.companyName (it : Item) : Option String :=
  (it.properties.bind (fun p => p.objs.lookup "company")).bind (·.name)

/-- `item.properties?.id`. -/
def Item.propsId (it : Item) : Option String :=
  it.properties.bind (·.id)

/-- `item.properties?.url`. -/
def Item.propsUrl (it : Item) : Option String :=
  it.properties.bind (·.url)

/-- Result of the external `tldts.parse` call with the service's `|| ''`
defaults already applied (`hostname`, `domain`, `domainWithoutSuffix`,
`subdomain`).  `tldts` is an external library, so the parse function is an
oracle parameter of the embedding. -/
structure UrlInfo where
  hostname : String := ""
  domain : String := ""
  domainWithoutSuffix : String := ""
  subdomain : String := ""
deriving Repr, DecidableEq

/-- A canonical row derived from a raw item by `_canonItem`. -/
structure Row where
  rowId : String
  name : String
  url : String
  host : String
  brand : String
  etld1 : String
  subCls : String
  isVideoPlatform : Bool
  raw : Item
deriving Repr, DecidableEq

/-- `GENERIC_SUBS`. -/
def GENERIC_SUBS : List String :=
  ["", "www", "api", "app", "blog", "docs", "about", "info", "help", "support",
   "contact", "careers", "jobs", "news", "press", "media", "home", "main",
   "portal", "dashboard", "admin", "login", "auth", "secure", "shop", "store",
   "web", "site", "page", "landing", "welcome", "intro", "global"]

/-- `ORGANIZATIONAL_SUBS`. -/
def ORGANIZATIONAL_SUBS : List String :=
  ["about", "company", "corp", "corporate", "business", "enterprise",
   "careers", "jobs", "hr", "talent", "recruitment",
   "contact", "support", "help", "service", "customer",
   "info", "information", "details", "overview",
   "press", "media", "news", "blog", "newsroom",
   "investor", "investors", "ir", "relations"]

/-- `VIDEO_PLATFORMS`. -/
def VIDEO_PLATFORMS : List String := ["youtube.com", "vimeo.com", "dailymotion.com"]

/-- Exact rational multiplication for modelled JS numbers, written with
`mkRat` so that it evaluates inside the kernel. -/
def qmul (a b : ℚ) : ℚ := mkRat (a.num * b.num) (a.den * b.den)

/-- Exact rational addition for modelled JS numbers (kernel-evaluable). -/
def qadd (a b : ℚ) : ℚ := mkRat (a.num * b.den + b.num * a.den) (a.den * b.den)

/-- `JARO_THRESH = 0.95` (JS numbers modelled as exact rationals). -/
def JARO_THRESH : ℚ := mkRat 19 20

/-- `ENTITY_JARO_THRESH = 0.92` (current `dedupService.js`). -/
def ENTITY_JARO_THRESH : ℚ := mkRat 23 25

/-- `LLM_BATCH = 25`. -/
def LLM_BATCH : Nat := 25

/-- `LLM_LAT_MS = 300`. -/
def LLM_LAT_MS : Nat := 300

/-- URL extraction in `_canonItem`: `properties.url`, then the top-level
`url`, then the first object-valued property with a truthy `url` or
`website`, finally `source` when it looks like a URL. -/
def extractUrl (item : Item) : String :=
  let u : Option String :=
    if truthyS item.propsUrl then item.propsUrl
    else if truthyS item.url then item.url
    else
      match (item.properties.map (·.objs)).getD [] |>.find?
          (fun e => truthyS e.2.url ∨ truthyS e.2.website) with
      | some e => jsOrS e.2.url e.2.website
      | none => none
  let u : String := (if truthyS u then u else none).getD ""
  if u = "" then
    match item.source with
    | some src =>
        if src ≠ "" ∧ ("http".toList.isPrefixOf src.toList ∨ src.toList.contains '.') then
          src
        else ""
    | none => ""
  else u

/-- `_extractBestTitle`: first non-empty (after trim) of `title`, `name`,
`properties.title`, `properties.name`, then `title`/`name` of each nested
object, cleaned with `_cleanText`. -/
def extractBestTitle (item : Item) : String :=
  let nested : List (Option String) :=
    match item.properties with
    | none => []
    | some ps => (ps.objs.flatMap (fun e => [e.2.title, e.2.name])).filter truthyS
  let cands : List (Option String) :=
    [item.title, item.name, item.properties.bind (·.title),
     item.properties.bind (·.name)] ++ nested
  match cands.find? (fun o => match o with
      | some s => jsTrim s ≠ ""
      | none => false) with
  | some (some s) => cleanText s
  | _ => ""

/-- Company-mode name extraction in `_canonItem` (also reused verbatim by
`_broadcastRejection`): `name`, `title`, `properties.name`,
`properties.title`, `properties.company.name`, then the first nested object
with a truthy `name`/`title`/`company_name`; each candidate is cleaned. -/
def extractCompanyName (item : Item) : String :=
  if truthyS item.name then cleanText (item.name.getD "")
  else if truthyS item.title then cleanText (item.title.getD "")
  else if truthyS (item.properties.bind (·.name)) then
    cleanText ((item.properties.bind (·.name)).getD "")
  else if truthyS (item.properties.bind (·.title)) then
    cleanText ((item.properties.bind (·.title)).getD "")
  else if truthyS item.companyName then cleanText (item.companyName.getD "")
  else
    match (item.properties.map (·.objs)).getD [] |>.find?
        (fun e => truthyS e.2.name ∨ truthyS e.2.title ∨ truthyS e.2.company_name) with
    | some e => cleanText ((jsOrS e.2.name (jsOrS e.2.title e.2.company_name)).getD "")
    | none => ""

/-- Pattern `\.(com|org|net|io|co)$` used by the domain-slug name fallback. -/
def reTldSuffix : RE :=
  rcat [.lit '.', ralt [rstr "com", rstr "org", rstr "net", rstr "io", rstr "co"], .eol]

/-- Brand derivation: `(domainWithoutSuffix || '').replace(/[-_\d]/g, '').toLowerCase()`. -/
def brandOf (domainWithoutSuffix : String) : String :=
  lowerStr (String.mk (domainWithoutSuffix.toList.filter
    (fun c => ¬ (c = '-' ∨ c = '_' ∨ ('0' ≤ c ∧ c ≤ '9')))))

/-- The `video:<name-slug>` slug: name lowercased with every character
outside `[a-z0-9]` removed. -/
def videoSlug (name : String) : String :=
  String.mk ((lowerStr name).toList.filter
    (fun c => ('a' ≤ c ∧ c ≤ 'z') ∨ ('0' ≤ c ∧ c ≤ '9')))

/-- The local `key0` computed inside `_canonItem`: `video:<slug>` for video
platforms, otherwise `brand:etld1:subCls`.  The source computes this value
and then discards it — the returned row does not carry it, and every later
tier-0 lookup recomputes the plain `brand:etld1:subCls` form. -/
def canonKey0 (isVideoPlatform : Bool) (name brand etld1 subCls : String) : String :=
  if isVideoPlatform then "video:" ++ videoSlug name
  else brand ++ ":" ++ etld1 ++ ":" ++ subCls

/-- The tier-0 key actually used by `_processItemSequentially` and
`_accept`: always `brand:etld1:subCls`. -/
def tierKey (row : Row) : String :=
  row.brand ++ ":" ++ row.etld1 ++ ":" ++ row.subCls

/-- `_canonItem` (current `dedupService.js`): derive the canonical row from
a raw item.  `parse` is the `tldts.parse` oracle and `uuid` the value
`crypto.randomUUID()` would return for this call. -/
def canonItem (entityType : Option String) (parse : String → UrlInfo) (uuid : String)
    (item : Item) : Row :=
  let u := extractUrl item
  let name0 : String :=
    if entityType.isSome then extractBestTitle item else extractCompanyName item
  let name : String :=
    if name0 = "" ∧ u ≠ "" then
      let urlInfo := parse u
      if urlInfo.domain ≠ "" then reReplaceFirst false reTldSuffix "" urlInfo.domain
      else name0
    else name0
  let info := parse u
  let brand := brandOf info.domainWithoutSuffix
  let etld1 := info.domain
  let subCls := if GENERIC_SUBS.contains info.subdomain then "generic" else "other"
  let isVideoPlatform := VIDEO_PLATFORMS.contains etld1
  { rowId := if truthyS item.id then item.id.getD "" else uuid
    name := jsTrim name
    url := u
    host := info.hostname
    brand := brand
    etld1 := etld1
    subCls := subCls
    isVideoPlatform := isVideoPlatform
    raw := item }

/-! ### Fuzzy matcher -/

/-- First occurrence replacement of a literal substring, modelling JS
`String.prototype.replace` with a string pattern. -/
def replaceFirstLit (s pat repl : String) : String :=
  if pat = "" then repl ++ s
  else
    let rec go (fuel : Nat) (l : List Char) : List Char :=
      match fuel, l with
      | 0, l => l
      | _, [] => []
      | fuel + 1, c :: t =>
          if pat.toList.isPrefixOf (c :: t) then
            repl.toList ++ (c :: t).drop pat.length
          else c :: go fuel t
    String.mk (go s.toList.length s.toList)

/-- `_areSubdomainsSimilar`: equal registrable domains whose subdomains are
both generic, generic + organizational, or both organizational. -/
def areSubdomainsSimilar (a b : Row) : Bool :=
  if a.etld1 ≠ b.etld1 then false
  else
    let subA := lowerStr (replaceFirstLit a.host ("." ++ a.etld1) "")
    let subB := lowerStr (replaceFirstLit b.host ("." ++ b.etld1) "")
    (GENERIC_SUBS.contains subA ∧ GENERIC_SUBS.contains subB) ∨
    ((GENERIC_SUBS.contains subA ∧ ORGANIZATIONAL_SUBS.contains subB) ∨
     (GENERIC_SUBS.contains subB ∧ ORGANIZATIONAL_SUBS.contains subA)) ∨
    (ORGANIZATIONAL_SUBS.contains subA ∧ ORGANIZATIONAL_SUBS.contains subB)

/-- Result of `_fuzzyDup`: JS `true` / `false` / `null`. -/
inductive FuzzyRes where
  | dup
  | uniq
  | ambig
deriving Repr, DecidableEq

/-- `_fuzzyDup` (current `dedupService.js`).  `jw` is the external
`natural.JaroWinklerDistance` oracle; `entityType` is the service's mode. -/
def fuzzyDup (entityType : Option String) (jw : String → String → ℚ) (a b : Row) :
    FuzzyRes :=
  if a.isVideoPlatform ∨ b.isVideoPlatform then
    let score := jw (normalizeEntityTitle a.name) (normalizeEntityTitle b.name)
    if score > mkRat 19 20 then .dup else if score > mkRat 17 20 then .ambig else .uniq
  else if areSubdomainsSimilar a b ∧ entityType.isNone then .dup
  else if a.etld1 = b.etld1 ∧ a.subCls = "generic" ∧ b.subCls = "generic" ∧
      entityType.isNone then .dup
  else
    let sameBrand : Option FuzzyRes :=
      if a.brand = b.brand ∧ a.brand.length > 2 then
        if a.subCls = "generic" ∧ b.subCls = "generic" ∧ entityType.isNone then
          some .dup
        else if (a.subCls = "generic" ∧ b.subCls = "other") ∨
            (a.subCls = "other" ∧ b.subCls = "generic") then
          some .ambig
        else if a.subCls = "other" ∧ b.subCls = "other" then
          if jw (lowerStr a.name) (lowerStr b.name) > mkRat 4 5 then some .dup
          else some .ambig
        else none
      else none
    match sameBrand with
    | some r => r
    | none =>
        let score :=
          if entityType.isSome then
            jw (normalizeEntityTitle a.name) (normalizeEntityTitle b.name)
          else jw (lowerStr a.name) (lowerStr b.name)
        let threshold := if entityType.isSome then ENTITY_JARO_THRESH else JARO_THRESH
        if score > threshold then .dup
        else if a.brand ≠ b.brand ∧ a.etld1 ≠ b.etld1 then .uniq
        else .ambig

/-- Lexicographic string comparison used by JS default `Array.sort` on
ASCII strings. -/
def strLeJs (a b : String) : Bool :=
  let rec go : List Char → List Char → Bool
    | [], _ => true
    | _ :: _, [] => false
    | c :: cs, d :: ds => if c = d then go cs ds else c.val ≤ d.val
  go a.toList b.toList

/-- `[x, y].sort().join('|')` on two strings. -/
def sortJoin (x y : String) : String :=
  if strLeJs x y then x ++ "|" ++ y else y ++ "|" ++ x

/-- `[x, y].sort().join('|')` when either value may be `undefined`: JS sorts
`undefined` elements to the end and `join` renders them as the empty
string. -/
def sortJoinOpt : Option String → Option String → String
  | some x, some y => sortJoin x y
  | some x, none => x ++ "|"
  | none, some y => y ++ "|"
  | none, none => "|"

/-- `_cacheHit`: look the pair up under the sorted *eTLD+1* key. -/
def cacheHit (llmCache : List (String × Bool)) (a b : Row) : Bool :=
  llmCache.lookup (sortJoin a.etld1 b.etld1) = some true

/-- `_hostFromUrl` is `try { new URL(u).host } catch { u }`; the browser URL
parser is external, so the embedding takes a `hostOf` oracle covering the
whole `try`/`catch`. -/
def hostFromUrlO (hostOf : String → String) : Option String → Option String
  | none => none
  | some u => some (hostOf u)

/-! ### Events, pending decisions and engine state -/

/-- Broadcast event frames emitted for a job.  `confirm` carries an optional
payload because `_confirmPending` broadcasts `p.rawA`, which is `undefined`
when a company decision is routed through the legacy-pairs branch. -/
inductive Event where
  | connected (websetId : String)
  | statusEv (status : String)
  | item (it : Item)
  | pending (tmpId : String)
  | dropEv (tmpId : String)
  | confirm (data : Option Item)
  | rejected (it : Item) (reason details : String) (existing : Option Item)
  | finished (total : Nat)
  | errorEv (msg : String)
deriving Repr, DecidableEq

/-- Candidate snapshot stored in an `entity_decision`. -/
structure SimEntity where
  id : String
  name : String
  url : String
deriving Repr, DecidableEq

/-- Candidate snapshot stored in a `company_decision`. -/
structure SimCompany where
  id : String
  name : String
  url : String
  brand : String
  etld1 : String
deriving Repr, DecidableEq

/-- Pending decisions: legacy pairs, entity decisions and company
decisions, mirroring the objects pushed into `this.batch`. -/
inductive Decision where
  | pairD (idA nameA urlA idB nameB urlB websetId : String) (rawA : Item)
  | entityD (idNew nameNew urlNew : String) (similar : List SimEntity)
      (websetId : String) (rawNew : Item)
  | companyD (idNew nameNew urlNew brandNew etld1New : String)
      (similar : List SimCompany) (websetId : String) (rawNew : Item)
deriving Repr, DecidableEq

/-- `p.type === 'entity_decision'`. -/
def Decision.isEntityD : Decision → Bool
  | .entityD .. => true
  | _ => false

/-- `p.urlA` (absent on entity/company decisions). -/
def Decision.urlA : Decision → Option String
  | .pairD _ _ u _ _ _ _ _ => some u
  | _ => none

/-- `p.urlB`. -/
def Decision.urlB : Decision → Option String
  | .pairD _ _ _ _ _ u _ _ => some u
  | _ => none

/-- `p.idA`. -/
def Decision.idA : Decision → Option String
  | .pairD i _ _ _ _ _ _ _ => some i
  | _ => none

/-- `p.nameA`. -/
def Decision.nameA? : Decision → Option String
  | .pairD _ n _ _ _ _ _ _ => some n
  | _ => none

/-- `p.nameB`. -/
def Decision.nameB : Decision → Option String
  | .pairD _ _ _ _ n _ _ _ => some n
  | _ => none

/-- `p.rawA`. -/
def Decision.rawA : Decision → Option Item
  | .pairD _ _ _ _ _ _ _ r => some r
  | _ => none

/-- The id under which the decision was registered in `this.pending`. -/
def Decision.pendingId : Decision → String
  | .pairD i _ _ _ _ _ _ _ => i
  | .entityD i _ _ _ _ _ => i
  | .companyD i _ _ _ _ _ _ _ => i

/-- Value stored in `processedTitles`. -/
structure TitleInfo where
  name : String
  url : String
  raw : Item
deriving Repr, DecidableEq

/-- The per-job dedup engine state (per `DedupService` instance). -/
structure DState where
  table : List (String × Row) := []
  pending : List (String × Decision) := []
  llmCache : List (String × Bool) := []
  batch : List Decision := []
  processedTitles : List (String × TitleInfo) := []
  processedUrls : List String := []
  processedIds : List String := []
deriving Repr, DecidableEq

/-- JS `Map.set`: replace in place if the key exists, else append. -/
def mapSet {α : Type} (m : List (String × α)) (k : String) (v : α) :
    List (String × α) :=
  if (m.lookup k).isSome then
    m.map (fun e => if e.1 = k then (k, v) else e)
  else m ++ [(k, v)]

/-- JS `Map.delete`. -/
def mapDelete {α : Type} (m : List (String × α)) (k : String) : List (String × α) :=
  m.filter (fun e => e.1 ≠ k)

/-- JS `Set.add`. -/
def setAdd (s : List String) (x : String) : List String :=
  if s.contains x then s else s ++ [x]

/-- The values of a JS `Map` in insertion order. -/
def mapValues {α : Type} (m : List (String × α)) : List α := m.map (·.2)

/-! ### Acceptance and rejection broadcasting -/

/-- `_accept` (current `dedupService.js`): insert the row under its tier-0
key, record entity bulletproof indices, and broadcast `item` unless
suppressed.  The vector `add` calls and the Mongo item write have no
broadcast-observable effect and counters are modelled separately. -/
def accept (entityType : Option String) (st : DState) (row : Row)
    (skipBroadcast : Bool) : DState × List Event :=
  let st := { st with table := mapSet st.table (tierKey row) row }
  let st :=
    if entityType.isSome then
      let st :=
        if row.url ≠ "" then { st with processedUrls := setAdd st.processedUrls row.url }
        else st
      let nt := if row.name ≠ "" then normalizeEntityTitle row.name else ""
      if nt ≠ "" then
        { st with processedTitles :=
            mapSet st.processedTitles nt ⟨row.name, row.url, row.raw⟩ }
      else st
    else st
  (st, if skipBroadcast then [] else [Event.item row.raw])

/-- The enhanced item embedded in `_broadcastRejection`'s event: the
extracted name and a defaulted `url` are forced onto the item, and a
`company` entry is added to the properties bag unless one already exists
(the trailing `...item.properties` spread restores existing keys). -/
def enhanceItem (item : Item) (extractedName : String) : Item :=
  let outerUrl : String :=
    if truthyS item.url then item.url.getD ""
    else if truthyS item.propsUrl then item.propsUrl.getD "" else ""
  let innerUrl : String := if truthyS item.url then item.url.getD "" else ""
  let newProps : Props :=
    match item.properties with
    | some p =>
        { p with
          url := match p.url with
            | some s => some s
            | none => some innerUrl
          objs :=
            if (p.objs.lookup "company").isSome then p.objs
            else p.objs ++ [("company", { name := some extractedName })] }
    | none =>
        { url := some innerUrl,
          objs := [("company", { name := some extractedName })] }
  { item with
    name := some extractedName
    url := some outerUrl
    properties := some newProps }

/-- `_broadcastRejection`: re-extract a display name with the
mode-appropriate logic, fall back to `properties.company.name` or
`"Unknown Item"`, and broadcast a `rejected` frame carrying the enhanced
item.  The Mongo write performed afterwards is modelled by the separate
persistence functions. -/
def broadcastRejection (entityType : Option String) (item : Item)
    (reason details : String) (existing : Option Item) : Event :=
  let n := if entityType.isSome then extractBestTitle item else extractCompanyName item
  let n :=
    if n = "" then
      if truthyS item.companyName then item.companyName.getD "" else "Unknown Item"
    else n
  Event.rejected (enhanceItem item n) reason details existing

/-! ### Tier-1 scan, candidate pool and LLM queueing -/

/-- Result of the tier-1 loop over the fingerprint table: either the first
row the fuzzy matcher called a duplicate, or the ambiguous rows in
iteration order. -/
inductive ScanRes where
  | foundDup (r : Row)
  | ambigs (l : List Row)
deriving Repr, DecidableEq

/-- The `for (const other of this.table.values())` loop: stop at the first
`true`, collect the `null`s. -/
def fuzzyScan (entityType : Option String) (jw : String → String → ℚ) (row : Row) :
    List Row → ScanRes
  | [] => .ambigs []
  | o :: rest =>
      match fuzzyDup entityType jw row o with
      | .dup => .foundDup o
      | .uniq => fuzzyScan entityType jw row rest
      | .ambig =>
          match fuzzyScan entityType jw row rest with
          | .foundDup r => .foundDup r
          | .ambigs l => .ambigs (o :: l)

/-- Vector-recall results for one item's `vecQuery` calls (name, url,
domain); the vector service is external, so these are oracle inputs.  A
transport failure is observationally an empty hit list. -/
structure VecHits where
  nameHits : List String := []
  urlHits : List String := []
  domainHits : List String := []
deriving Repr, DecidableEq

/-- Add vector hits to the candidate pool: only ids present in the
fingerprint table are considered, and `Set` insertion keeps the first
occurrence. -/
def addCandidates (table : List (String × Row)) (pool : List Row)
    (ids : List String) : List Row :=
  ids.foldl
    (fun acc id =>
      match table.lookup id with
      | some r => if acc.any (fun c => c.rowId = r.rowId) then acc else acc ++ [r]
      | none => acc)
    pool

/-- Stable descending insertion by score, reproducing the stable JS
`sort((a, b) => b.similarity - a.similarity)`. -/
def insertDesc (x : Row × ℚ) : List (Row × ℚ) → List (Row × ℚ)
  | [] => [x]
  | y :: ys => if y.2 > x.2 then y :: insertDesc x ys else x :: y :: ys

/-- Company candidate ranking: score
`0.6·name_jw + 0.2·domain_eq + 0.2·brand_eq`, drop scores `≤ 0.3`, sort
descending, keep the top 5. -/
def rankCandidates (jw : String → String → ℚ) (row : Row) (pool : List Row) :
    List (Row × ℚ) :=
  let scored := (pool.filter (fun c => c.name ≠ "")).map (fun c =>
    let nameSim := jw (lowerStr row.name) (lowerStr c.name)
    let domainSim : ℚ := if row.etld1 = c.etld1 then 1 else 0
    let brandSim : ℚ := if row.brand = c.brand then 1 else 0
    (c, qadd (qadd (qmul nameSim (mkRat 3 5)) (qmul domainSim (mkRat 1 5)))
      (qmul brandSim (mkRat 1 5))))
  ((scored.filter (fun x => x.2 > mkRat 3 10)).foldr insertDesc []).take 5

/-- `_queueEntityLLMDecision`: register the pending decision, broadcast
`pending`, stage the decision in the batch.  The size/timer flush trigger
is timing behaviour; the flush itself is `flushBatch` below. -/
def queueEntityLLMDecision (st : DState) (row : Row) (similar : List Row)
    (websetId : String) : DState × List Event :=
  let d : Decision := .entityD row.rowId row.name row.url
    ((similar.filter (fun e => e.rowId ≠ "")).map
      (fun e => ⟨e.rowId, if e.name = "" then "Unknown" else e.name, e.url⟩))
    websetId row.raw
  ({ st with
      pending := mapSet st.pending row.rowId d
      batch := st.batch ++ [d] },
   [Event.pending row.rowId])

/-- `_queueCompanyLLMDecision`: same staging discipline for company
decisions. -/
def queueCompanyLLMDecision (st : DState) (row : Row) (similar : List Row)
    (websetId : String) : DState × List Event :=
  let d : Decision := .companyD row.rowId row.name row.url row.brand row.etld1
    ((similar.filter (fun c => c.rowId ≠ "")).map
      (fun c => ⟨c.rowId, if c.name = "" then "Unknown" else c.name, c.url, c.brand, c.etld1⟩))
    websetId row.raw
  ({ st with
      pending := mapSet st.pending row.rowId d
      batch := st.batch ++ [d] },
   [Event.pending row.rowId])

/-! ### `_processItemSequentially` and `ingest` -/

/-- The tail of `_processItemSequentially` after the bulletproof layers and
the tier-0 check: tier-1 fuzzy scan and either immediate accept/reject or
LLM queueing (entity branch has no vector search in the current source; the
company branch unions vector hits into the pool and ranks them). -/
def processTier1 (entityType : Option String) (jw : String → String → ℚ)
    (vhits : VecHits) (st : DState) (websetId : String) (row : Row) :
    DState × List Event :=
  match entityType with
  | some _ =>
      match fuzzyScan entityType jw row (mapValues st.table) with
      | .foundDup other =>
          (st, [Event.rejected row.raw "entity_fuzzy_match"
            ("Entity similar to: " ++ other.name) (some other.raw)])
      | .ambigs similars =>
          if similars.isEmpty then
            accept entityType st row false
          else
            queueEntityLLMDecision st row similars websetId
  | none =>
      match fuzzyScan entityType jw row (mapValues st.table) with
      | .foundDup other =>
          (st, [broadcastRejection entityType row.raw "high_similarity_match"
            ("Very similar to: " ++ other.name) (some other.raw)])
      | .ambigs ambigPool =>
          let pool := addCandidates st.table ambigPool vhits.nameHits
          let pool :=
            if row.url ≠ "" ∧ row.url ≠ row.name then
              addCandidates st.table pool vhits.urlHits
            else pool
          let pool :=
            if row.etld1 ≠ "" then addCandidates st.table pool vhits.domainHits
            else pool
          let ranked := rankCandidates jw row pool
          if ranked.isEmpty then
            accept entityType st row false
          else
            queueCompanyLLMDecision st row (ranked.map (·.1)) websetId

/-- `_processItemSequentially` (current `dedupService.js`): entity
bulletproof layers, tier-0 exact check (company mode only), then
`processTier1`.  Oracles: `parse` (tldts), `jw` (Jaro–Winkler), `vhits`
(vector recall for this item), `uuid` (`crypto.randomUUID()` for this
call). -/
def processItemSequentially (entityType : Option String) (parse : String → UrlInfo)
    (jw : String → String → ℚ) (vhits : VecHits) (uuid : String)
    (st : DState) (websetId : String) (item : Item) : DState × List Event :=
  let row := canonItem entityType parse uuid item
  if entityType.isSome ∧ row.url ≠ "" ∧ st.processedUrls.contains row.url then
    (st, [broadcastRejection entityType row.raw "exact_url_duplicate"
      ("Exact URL already processed: " ++ row.url) none])
  else
    let ntHit : Option TitleInfo :=
      if entityType.isSome ∧ row.name ≠ "" ∧ normalizeEntityTitle row.name ≠ "" then
        st.processedTitles.lookup (normalizeEntityTitle row.name)
      else none
    match ntHit with
    | some existing =>
        (st, [broadcastRejection entityType row.raw "normalized_title_duplicate"
          ("Normalized title already processed: \"" ++ normalizeEntityTitle row.name ++
            "\" (existing: " ++ existing.name ++ ")")
          (some existing.raw)])
    | none =>
        let key0 := tierKey row
        match st.table.lookup key0 with
        | some existingItem =>
            if entityType.isNone then
              (st, [broadcastRejection entityType row.raw "exact_match"
                ("Exact key match: " ++ key0) (some existingItem.raw)])
            else
              processTier1 entityType jw vhits st websetId row
        | none => processTier1 entityType jw vhits st websetId row

/-- `ingest` (current `dedupService.js`): generate an id of the form
`item_<timestamp>_<first 8 uuid chars>` when both `item.id` and
`properties.id` are missing, skip items whose id was already processed in
this job, record the id, then process the item.  The entity promise queue
serializes items; a single enqueue-and-run is its observable effect, so the
embedding calls the sequential processor directly. -/
def ingest (entityType : Option String) (parse : String → UrlInfo)
    (jw : String → String → ℚ) (vhits : VecHits) (nowTs : Nat)
    (uuidGen uuidCanon : String) (st : DState) (websetId : String)
    (item : Item) : DState × List Event :=
  let item :=
    if ¬ truthyS item.id ∧ ¬ truthyS item.propsId then
      { item with id := some ("item_" ++ toString nowTs ++ "_" ++ uuidGen.take 8) }
    else item
  let itemId := jsOrS item.id item.propsId
  match itemId with
  | some i =>
      if st.processedIds.contains i then (st, [])
      else
        processItemSequentially entityType parse jw vhits uuidCanon
          { st with processedIds := setAdd st.processedIds i } websetId item
  | none =>
      -- Unreachable: the generation step above always yields a truthy id.
      processItemSequentially entityType parse jw vhits uuidCanon st websetId item

/-! ### `_confirmPending` and `_flushBatch` -/

/-- Result of one state-transforming step that can throw: the state and
events reflect the effects applied before the throw point. -/
structure StepRes where
  state : DState
  events : List Event
  crashed : Bool
deriving Repr, DecidableEq

/-- Template interpolation of a possibly-`undefined` value. -/
def jsShow : Option String → String
  | none => "undefined"
  | some s => s

/-- Delete a pending entry by a possibly-`undefined` key. -/
def mapDeleteOpt (m : List (String × Decision)) : Option String →
    List (String × Decision)
  | none => m
  | some k => mapDelete m k

/-- `_confirmPending` (current `dedupService.js`).  Entity decisions are
dispatched on their tag; *everything else* — legacy pairs **and** company
decisions — falls into the legacy-pairs branch, which reads the pair-only
fields `urlA`, `urlB`, `rawA`, `idA`, `nameB` (all `undefined` on a company
decision).  On a `true` verdict for a company decision the branch calls
`_broadcastRejection` with an `undefined` item, which raises a `TypeError`
(`crashed`); the cache write preceding it is still applied. -/
def confirmPending (entityType : Option String) (parse : String → UrlInfo)
    (uuid : String) (hostOf : String → String) (st : DState) (p : Decision)
    (same : Bool) : StepRes :=
  match p with
  | .entityD idNew nameNew urlNew _ _ rawNew =>
      if same then
        let ev := broadcastRejection entityType rawNew "entity_llm_duplicate"
          ("LLM determined entity duplicate of similar " ++ jsShow entityType) none
        { state := { st with pending := mapDelete st.pending idNew }
          events := [ev, .dropEv idNew]
          crashed := false }
      else
        let item' := { rawNew with url := some urlNew, name := some nameNew }
        let row := canonItem entityType parse uuid item'
        let (st1, evs) := accept entityType st row false
        { state := { st1 with pending := mapDelete st1.pending idNew }
          events := evs ++ [.confirm (some rawNew)]
          crashed := false }
  | _ =>
      let cacheKey := sortJoinOpt (hostFromUrlO hostOf p.urlA) (hostFromUrlO hostOf p.urlB)
      let st := { st with llmCache := mapSet st.llmCache cacheKey same }
      if same then
        match p.rawA with
        | none =>
            -- `_broadcastRejection(websetId, undefined, …)` throws before
            -- broadcasting anything.
            { state := st, events := [], crashed := true }
        | some rawA =>
            let ev := broadcastRejection entityType rawA "llm_duplicate"
              ("LLM determined duplicate of: " ++ jsShow p.nameB) none
            { state := { st with pending := mapDeleteOpt st.pending p.idA }
              events := [ev, .dropEv (jsShow p.idA)]
              crashed := false }
      else
        let baseItem : Item := (p.rawA).getD {}
        let item' : Item := { baseItem with url := p.urlA, name := p.nameA? }
        let row := canonItem entityType parse uuid item'
        let (st1, _) := accept entityType st row true
        { state := { st1 with pending := mapDeleteOpt st1.pending p.idA }
          events := [.confirm p.rawA]
          crashed := false }

/-- One verdict entry of the parsed LLM response: a bare boolean or a
boolean array (`verdict[0]` is extracted, `undefined` on an empty array is
falsy). -/
inductive Verdict where
  | vb (b : Bool)
  | varr (l : List Bool)
deriving Repr, DecidableEq

/-- `Array.isArray(verdict) ? verdict[0] : verdict`. -/
def verdictBool : Verdict → Bool
  | .vb b => b
  | .varr l => l.headD false

/-- A field of the parsed JSON response: absent/falsy, present but not an
array, or an array of verdicts. -/
inductive JsonField where
  | absent
  | nonArr
  | arr (l : List Verdict)
deriving Repr, DecidableEq

/-- Outcome of one LLM round trip: transport error, JSON parse failure, or
a parsed object with its `decisions` and `pairs` fields. -/
inductive LLMOutcome where
  | transportErr
  | parseFail
  | parsed (decisions pairs : JsonField)
deriving Repr, DecidableEq

/-- The error path `for (const p of batch) this._confirmPending(p, false)`:
the un-awaited calls all run; a rejection in one does not stop the loop. -/
def applyAllUnique (entityType : Option String) (parse : String → UrlInfo)
    (uuid : String) (hostOf : String → String) :
    DState → List Decision → DState × List Event
  | st, [] => (st, [])
  | st, p :: ps =>
      let r := confirmPending entityType parse uuid hostOf st p false
      let (st', evs) := applyAllUnique entityType parse uuid hostOf r.state ps
      (st', r.events ++ evs)

/-- The verdict loop `for (let i = 0; i < verdicts.length; i++)`: items are
resolved pairwise with the verdicts; batch items beyond the verdict count
are never touched, and a thrown `TypeError` aborts the (awaited) loop. -/
def applyVerdicts (entityType : Option String) (parse : String → UrlInfo)
    (uuid : String) (hostOf : String → String) :
    DState → List Verdict → List Decision → StepRes
  | st, [], _ => { state := st, events := [], crashed := false }
  | st, _ :: vs, [] =>
      -- `batch[i]` is undefined: warn and continue.
      applyVerdicts entityType parse uuid hostOf st vs []
  | st, v :: vs, p :: ps =>
      let r := confirmPending entityType parse uuid hostOf st p (verdictBool v)
      if r.crashed then r
      else
        let rest := applyVerdicts entityType parse uuid hostOf r.state vs ps
        { state := rest.state, events := r.events ++ rest.events
          crashed := rest.crashed }

/-- `verdicts = responseData.decisions || responseData.pairs || []` followed
by the `Array.isArray` guard that replaces a non-array value with
`batch.map(() => [false])`. -/
def pickVerdicts (batch : List Decision) (hasEntity : Bool)
    (decisions pairs : JsonField) : List Verdict :=
  let field : JsonField :=
    if hasEntity then
      match decisions with
      | .absent =>
          match pairs with
          | .absent => .arr []
          | f => f
      | f => f
    else
      match pairs with
      | .absent => .arr []
      | f => f
  match field with
  | .arr l => l
  | _ => batch.map (fun _ => .varr [false])

/-- `_flushBatch` (current `dedupService.js`): drain the staged batch; on
transport error resolve everything as unique; otherwise parse the response
(parse failure also defaults every verdict to `[false]`) and apply the
verdicts in index order. -/
def flushBatch (entityType : Option String) (parse : String → UrlInfo)
    (uuid : String) (hostOf : String → String) (st : DState)
    (out : LLMOutcome) : StepRes :=
  let batch := st.batch
  let st := { st with batch := [] }
  if batch.isEmpty then { state := st, events := [], crashed := false }
  else
    match out with
    | .transportErr =>
        let (st', evs) := applyAllUnique entityType parse uuid hostOf st batch
        { state := st', events := evs, crashed := false }
    | .parseFail =>
        applyVerdicts entityType parse uuid hostOf st
          (batch.map (fun _ => .varr [false])) batch
    | .parsed decisions pairs =>
        let hasEntity := batch.any Decision.isEntityD
        applyVerdicts entityType parse uuid hostOf st
          (pickVerdicts batch hasEntity decisions pairs) batch

/-! ### Webset counter updates (`_updateWebsetCountersAsync`) -/

/-- Outcome of one `Webset.updateOne` attempt: success, a retryable write
conflict (`ParallelSaveError` / code 11000), or any other error. -/
inductive AttemptOutcome where
  | success
  | conflictErr
  | otherErr
deriving Repr, DecidableEq

/-- The single `$inc` document built for one persisted item. -/
structure CounterOps where
  totalItems : Nat
  uniqueItems : Nat
  duplicatesRejected : Nat
  reasonKey : Option String
deriving Repr, DecidableEq

/-- The update operations: `totalItems` always, `uniqueItems` on accept,
`duplicatesRejected` plus `rejectionReasons.<reason>` on reject. -/
def counterOps (status : String) (rejectionReason : Option String) : CounterOps :=
  { totalItems := 1
    uniqueItems := if status = "accepted" then 1 else 0
    duplicatesRejected := if status = "rejected" then 1 else 0
    reasonKey :=
      if status = "rejected" then
        some ("rejectionReasons." ++ (if truthyS rejectionReason then
          rejectionReason.getD "" else "unknown"))
      else none }

/-- Result of the retry loop: one applied update, or a logged failure (the
error is swallowed; ingestion continues). -/
inductive CounterResult where
  | updated (ops : CounterOps) (attempts : Nat)
  | failedLogged (attempts : Nat)
  | websetMissing
deriving Repr, DecidableEq

/-- The `while (retryCount < maxRetries)` loop with `maxRetries = 3`:
attempt `n` (0-based) consults the outcome oracle; conflicts retry until
`retryCount` reaches 3, other errors abort immediately; every abort is
caught and logged. -/
def countersGo (outcome : Nat → AttemptOutcome) (ops : CounterOps) :
    Nat → Nat → CounterResult
  | 0, n => .failedLogged n
  | fuel + 1, n =>
      match outcome n with
      | .success => .updated ops (n + 1)
      | .otherErr => .failedLogged (n + 1)
      | .conflictErr =>
          if n + 1 < 3 then countersGo outcome ops fuel (n + 1)
          else .failedLogged (n + 1)

/-- `_updateWebsetCountersAsync`: look the webset up, then run the bounded
retry loop.  The initial dispatch delay and per-retry backoff are timing
behaviour modelled by `backoffDelay` below. -/
def updateWebsetCountersAsync (status : String) (rejectionReason : Option String)
    (websetExists : Bool) (outcome : Nat → AttemptOutcome) : CounterResult :=
  if websetExists then countersGo outcome (counterOps status rejectionReason) 3 0
  else .websetMissing

/-- `Math.floor(Math.random() * (100 * Math.pow(2, retryCount)))`: the
jittered exponential backoff delay before retry `retryCount`, given the
random draw `r`. -/
def backoffDelay (r : ℚ) (retryCount : Nat) : ℤ :=
  Int.floor (r * (100 * 2 ^ retryCount))

/-! ### Streaming server (`server.js`) -/

/-- Per-job server state: the raw items fetched from upstream so far (the
replay source), the registered client sinks, the dedup engine state, and
the in-memory counters maintained by the broadcast callback. -/
structure ServerState where
  items : List Item := []
  clients : List Nat := []
  dedupState : DState := {}
  processedItems : Nat := 0
  rejectedItems : Nat := 0
deriving Repr, DecidableEq

/-- The frames written to a newly connected SSE subscriber before it joins
the live stream: `connected`, then one `item` frame per entry of
`websetData.items` in order. -/
def subscribeEvents (websetId : String) (s : ServerState) : List Event :=
  Event.connected websetId :: s.items.map Event.item

/-- Registering the subscriber (`websetData.clients.set(clientId, res)`). -/
def subscribe (clientId : Nat) (s : ServerState) : ServerState :=
  { s with clients := s.clients ++ [clientId] }

/-- The broadcast callback installed on the engine: count `item` and
`rejected` frames. -/
def countEvents (s : ServerState) (evs : List Event) : ServerState :=
  evs.foldl
    (fun acc e =>
      match e with
      | .item _ => { acc with processedItems := acc.processedItems + 1 }
      | .rejected _ _ _ _ => { acc with rejectedItems := acc.rejectedItems + 1 }
      | _ => acc)
    s

/-- The per-item body of `fetchAllItemsWithCursor`'s loop: push the raw
item into `websetData.items`, then feed it to the dedup engine. -/
def handleOneItem (entityType : Option String) (parse : String → UrlInfo)
    (jw : String → String → ℚ) (vhitsOf : Item → VecHits) (nowTs : Nat)
    (uuidGen uuidCanon : String) (websetId : String) (s : ServerState)
    (item : Item) : ServerState × List Event :=
  let s := { s with items := s.items ++ [item] }
  let (d', evs) := ingest entityType parse jw (vhitsOf item) nowTs uuidGen uuidCanon
    s.dedupState websetId item
  (countEvents { s with dedupState := d' } evs, evs)

/-- One page of new upstream items: filter out ids already present in
`websetData.items`, emit the `processing_items` status frame when there is
anything new, then process each new item in order. -/
def handleNewItems (entityType : Option String) (parse : String → UrlInfo)
    (jw : String → String → ℚ) (vhitsOf : Item → VecHits) (nowTs : Nat)
    (uuidGen uuidCanon : String) (websetId : String) (s : ServerState)
    (pageItems : List Item) : ServerState × List Event :=
  let newItems := pageItems.filter
    (fun it => ¬ s.items.any (fun ex => ex.id = it.id))
  if newItems.isEmpty then (s, [])
  else
    let step := newItems.foldl
      (fun (acc : ServerState × List Event) it =>
        let (s', evs) := handleOneItem entityType parse jw vhitsOf nowTs uuidGen
          uuidCanon websetId acc.1 it
        (s', acc.2 ++ evs))
      (s, [])
    (step.1, Event.statusEv "processing_items" :: step.2)

/-- The events `_confirmPending` broadcasts when an entity decision is
resolved as unique: the acceptance `item` frame for the re-canonicalized
item and the `confirm` frame carrying the original raw item. -/
def entityUniqueEvents : Decision → List Event
  | .entityD _ nameNew urlNew _ _ rawNew =>
      [Event.item ({ rawNew with url := some urlNew, name := some nameNew } : Item),
       Event.confirm (some rawNew)]
  | _ => []

/-- Sequential `Map.delete` over a list of keys. -/
def removeKeys (m : List (String × Decision)) (ks : List String) :
    List (String × Decision) :=
  ks.foldl mapDelete m

/-! ### Concrete fixtures used by witnesses and counterexamples -/

/-- A `tldts.parse` oracle covering the concrete URLs used below. -/
def parseW : String → UrlInfo := fun u =>
  if u = "https://apple.com" then ⟨"apple.com", "apple.com", "apple", ""⟩
  else if u = "https://youtube.com/x" ∨ u = "https://youtube.com/y" then
    ⟨"youtube.com", "youtube.com", "youtube", ""⟩
  else if u = "https://vimeo.com/z" then ⟨"vimeo.com", "vimeo.com", "vimeo", ""⟩
  else if u = "https://app.acme.com" then ⟨"app.acme.com", "acme.com", "acme", "app"⟩
  else if u = "https://legal.acme.com" then ⟨"legal.acme.com", "acme.com", "acme", "legal"⟩
  else {}

/-- A constant-zero Jaro–Winkler oracle. -/
def jw0 : String → String → ℚ := fun _ _ => 0

/-- A Jaro–Winkler oracle that scores equal strings 1 and others 0. -/
def jwEq : String → String → ℚ := fun a b => if a = b then 1 else 0

/-- Fixture item `a` of spec scenario S1. -/
def itemA : Item := { id := some "a", name := some "Apple", url := some "https://apple.com" }

/-- Fixture item `b` of spec scenario S1. -/
def itemB : Item := { id := some "b", name := some "Apple", url := some "https://apple.com" }

/-- The canonical row of `itemA` in company mode. -/
def rowA : Row := canonItem none parseW "u" itemA

/-- Engine state holding `rowA` under its tier-0 key. -/
def stA : DState := { table := [(tierKey rowA, rowA)] }

/-- Video fixture: a YouTube item named `Alpha`. -/
def vItem1 : Item := { id := some "v1", name := some "Alpha", url := some "https://youtube.com/x" }

/-- Video fixture: a YouTube item named `Beta`. -/
def vItem2 : Item := { id := some "v2", name := some "Beta", url := some "https://youtube.com/y" }

/-- Video fixture: a Vimeo item also named `Alpha`. -/
def vItem3 : Item := { id := some "v3", name := some "Alpha", url := some "https://vimeo.com/z" }

/-- The canonical row of `vItem1` in company mode. -/
def rowV1 : Row := canonItem none parseW "u" vItem1

/-- Engine state after `vItem1` was accepted. -/
def stV : DState := { table := [(tierKey rowV1, rowV1)], processedIds := ["v1"] }

/-- Entity decisions staged for the flush counterexample. -/
def decE1 : Decision := .entityD "p1" "N1" "u1" [] "w" { id := some "p1", name := some "N1" }

/-- Second staged entity decision. -/
def decE2 : Decision := .entityD "p2" "N2" "u2" [] "w" { id := some "p2", name := some "N2" }

/-- State with a two-decision entity batch and both pending entries. -/
def stBatch : DState :=
  { batch := [decE1, decE2], pending := [("p1", decE1), ("p2", decE2)] }

/-- Accepted row for the cache counterexample (generic subdomain of
`acme.com`). -/
def rowX : Row :=
  { rowId := "x1", name := "Acme Corp", url := "https://app.acme.com",
    host := "app.acme.com", brand := "acme", etld1 := "acme.com",
    subCls := "generic", isVideoPlatform := false,
    raw := { id := some "x1", name := some "Acme Corp", url := some "https://app.acme.com" } }

/-- New ambiguous company item on a specific subdomain of the same brand. -/
def itemY : Item :=
  { id := some "y1", name := some "Acme Legal", url := some "https://legal.acme.com" }

/-- State holding `rowX` and a cache that answers `true` both under the
sorted host-pair key and under the sorted eTLD+1-pair key of the pair
`(rowX, itemY)`. -/
def stCache : DState :=
  { table := [(tierKey rowX, rowX)],
    llmCache := [(sortJoin "app.acme.com" "legal.acme.com", true),
                 (sortJoin "acme.com" "acme.com", true)] }

/-- A staged pair decision for the cache-store clause witness. -/
def decPair : Decision :=
  .pairD "pa" "Acme" "https://app.acme.com" "pb" "Acme HK" "https://legal.acme.com" "w"
    { id := some "pa", name := some "Acme" }

/-- Fixture rows for the fuzzy-threshold witness: distinct brands and
domains, no video platform. -/
def rowF1 : Row :=
  { rowId := "f1", name := "alphaco", url := "https://alpha.example",
    host := "alpha.example", brand := "alphaco", etld1 := "alpha.example",
    subCls := "other", isVideoPlatform := false, raw := { id := some "f1" } }

/-- Second fuzzy-threshold fixture row. -/
def rowF2 : Row :=
  { rowId := "f2", name := "betaco", url := "https://beta.example",
    host := "beta.example", brand := "betaco", etld1 := "beta.example",
    subCls := "other", isVideoPlatform := false, raw := { id := some "f2" } }

/-! ### C9: persisted counter updates -/

/-- Unrolled run of the three-attempt retry loop. -/
theorem countersGo_run (outcome : Nat → AttemptOutcome) (ops : CounterOps) :
    countersGo outcome ops 3 0 =
      match outcome 0 with
      | .success => .updated ops 1
      | .otherErr => .failedLogged 1
      | .conflictErr =>
          match outcome 1 with
          | .success => .updated ops 2
          | .otherErr => .failedLogged 2
          | .conflictErr =>
              match outcome 2 with
              | .success => .updated ops 3
              | .otherErr => .failedLogged 3
              | .conflictErr => .failedLogged 3 := rfl

/-- C9.  For an item persisted as accepted or rejected, the counter update
is a single `$inc` document incrementing `totalItems` together with exactly
one of `uniqueItems` (accept) or `duplicatesRejected` (reject) plus the
`rejectionReasons.<reason>` scalar on reject; the update is attempted at
most 3 times, write conflicts retry with a jittered exponential backoff
bounded by `100·2^retryCount` milliseconds, and persistent failure is
swallowed (logged) rather than raised. -/
theorem C9_counter_update (status : String) (rejectionReason : Option String)
    (outcome : Nat → AttemptOutcome) :
    (∀ ops n, updateWebsetCountersAsync status rejectionReason true outcome =
        .updated ops n → ops = counterOps status rejectionReason ∧ 1 ≤ n ∧ n ≤ 3) ∧
    (∀ n, updateWebsetCountersAsync status rejectionReason true outcome =
        .failedLogged n → n ≤ 3) ∧
    ((status = "accepted" ∨ status = "rejected") →
      (counterOps status rejectionReason).totalItems = 1 ∧
      (counterOps status rejectionReason).uniqueItems +
        (counterOps status rejectionReason).duplicatesRejected = 1) ∧
    (status = "accepted" →
      (counterOps status rejectionReason).uniqueItems = 1 ∧
      (counterOps status rejectionReason).duplicatesRejected = 0 ∧
      (counterOps status rejectionReason).reasonKey = none) ∧
    (status = "rejected" →
      (counterOps status rejectionReason).duplicatesRejected = 1 ∧
      (counterOps status rejectionReason).uniqueItems = 0 ∧
      (counterOps status rejectionReason).reasonKey =
        some ("rejectionReasons." ++
          (if truthyS rejectionReason then rejectionReason.getD "" else "unknown"))) ∧
    ((∀ n, outcome n = .conflictErr) →
      updateWebsetCountersAsync status rejectionReason true outcome = .failedLogged 3) ∧
    (∀ (r : ℚ) (rc : Nat), 0 ≤ r → r < 1 →
      0 ≤ backoffDelay r rc ∧ (backoffDelay r rc : ℚ) < 100 * 2 ^ rc) := by
  have hrun : updateWebsetCountersAsync status rejectionReason true outcome =
      countersGo outcome (counterOps status rejectionReason) 3 0 := rfl
  refine ⟨?_, ?_, ?_, ?_, ?_, ?_, ?_⟩
  · intro ops n h
    rw [hrun, countersGo_run] at h
    rcases ho0 : outcome 0 <;> rw [ho0] at h
    · simp only [CounterResult.updated.injEq] at h
      obtain ⟨ha, hb⟩ := h
      exact ⟨ha.symm, by omega⟩
    · rcases ho1 : outcome 1 <;> rw [ho1] at h
      · simp only [CounterResult.updated.injEq] at h
        obtain ⟨ha, hb⟩ := h
        exact ⟨ha.symm, by omega⟩
      · rcases ho2 : outcome 2 <;> rw [ho2] at h
        · simp only [CounterResult.updated.injEq] at h
          obtain ⟨ha, hb⟩ := h
          exact ⟨ha.symm, by omega⟩
        · exact absurd h (by simp)
        · exact absurd h (by simp)
      · exact absurd h (by simp)
    · exact absurd h (by simp)
  · intro n h
    rw [hrun, countersGo_run] at h
    rcases ho0 : outcome 0 <;> rw [ho0] at h
    · exact absurd h (by simp)
    · rcases ho1 : outcome 1 <;> rw [ho1] at h
      · exact absurd h (by simp)
      · rcases ho2 : outcome 2 <;> rw [ho2] at h
        · exact absurd h (by simp)
        · simp only [CounterResult.failedLogged.injEq] at h
          omega
        · simp only [CounterResult.failedLogged.injEq] at h
          omega
      · simp only [CounterResult.failedLogged.injEq] at h
        omega
    · simp only [CounterResult.failedLogged.injEq] at h
      omega
  · rintro (rfl | rfl) <;> exact ⟨rfl, by simp [counterOps]⟩
  · rintro rfl
    exact ⟨by simp [counterOps], by simp [counterOps], by simp [counterOps]⟩
  · rintro rfl
    exact ⟨by simp [counterOps], by simp [counterOps], by simp [counterOps]⟩
  · intro h
    rw [hrun, countersGo_run, h 0, h 1, h 2]
  · intro r rc h0 h1
    have hc : (0 : ℚ) < 100 * 2 ^ rc := by positivity
    constructor
    · exact Int.floor_nonneg.mpr (by positivity)
    · calc (backoffDelay r rc : ℚ) ≤ r * (100 * 2 ^ rc) := Int.floor_le _
        _ < 1 * (100 * 2 ^ rc) := mul_lt_mul_of_pos_right h1 hc
        _ = 100 * 2 ^ rc := one_mul _

/-- C9 witness: a rejected item with reason `exact_match` whose update
conflicts forever is retried exactly up to 3 attempts and then only
logged; the built ops increment `totalItems`, `duplicatesRejected` and the
reason key. -/
theorem C9_counter_update_witness :
    updateWebsetCountersAsync "rejected" (some "exact_match") true
        (fun _ => .conflictErr) = .failedLogged 3 ∧
    (counterOps "rejected" (some "exact_match")).totalItems = 1 ∧
    (counterOps "rejected" (some "exact_match")).duplicatesRejected = 1 ∧
    (counterOps "rejected" (some "exact_match")).uniqueItems = 0 ∧
    (counterOps "rejected" (some "exact_match")).reasonKey =
      some "rejectionReasons.exact_match" := by
  have h := C9_counter_update "rejected" (some "exact_match") (fun _ => .conflictErr)
  refine ⟨h.2.2.2.2.2.1 (fun _ => rfl), ?_, ?_, ?_, ?_⟩
  · exact (h.2.2.1 (Or.inr rfl)).1
  · exact (h.2.2.2.2.1 rfl).1
  · exact (h.2.2.2.2.1 rfl).2.1
  · exact (h.2.2.2.2.1 rfl).2.2

/-! ### C8: name-similarity thresholds -/

/-- C8.  In the fuzzy matcher's name-similarity rule the pair is classified
duplicate exactly when the Jaro–Winkler score strictly exceeds the mode
threshold: `0.95` on lowercased names in company mode and `0.92` on
normalized titles in entity mode (hypotheses state that evaluation reaches
the name-similarity rule, i.e. no earlier rule returned). -/
theorem C8_name_similarity_thresholds (jw : String → String → ℚ) (a b : Row)
    (t : String) :
    (JARO_THRESH = (19 : ℚ) / 20 ∧ ENTITY_JARO_THRESH = (23 : ℚ) / 25) ∧
    (¬ (a.isVideoPlatform = true ∨ b.isVideoPlatform = true) →
      ¬ areSubdomainsSimilar a b = true →
      ¬ (a.etld1 = b.etld1 ∧ a.subCls = "generic" ∧ b.subCls = "generic") →
      ¬ (a.brand = b.brand ∧ a.brand.length > 2) →
      (fuzzyDup none jw a b = .dup ↔
        jw (lowerStr a.name) (lowerStr b.name) > JARO_THRESH)) ∧
    (¬ (a.isVideoPlatform = true ∨ b.isVideoPlatform = true) →
      (a.brand = b.brand ∧ a.brand.length > 2 →
        a.subCls = "generic" ∧ b.subCls = "generic") →
      (fuzzyDup (some t) jw a b = .dup ↔
        jw (normalizeEntityTitle a.name) (normalizeEntityTitle b.name) >
          ENTITY_JARO_THRESH)) := by
  refine ⟨⟨?_, ?_⟩, ?_, ?_⟩
  · rw [JARO_THRESH, Rat.mkRat_eq_div]
    norm_num
  · rw [ENTITY_JARO_THRESH, Rat.mkRat_eq_div]
    norm_num
  · intro hv hs hd hb
    by_cases hsc : jw (lowerStr a.name) (lowerStr b.name) > JARO_THRESH
    · simp [fuzzyDup, hv, hs, hd, hb, hsc]
    · by_cases hbe : a.brand ≠ b.brand ∧ a.etld1 ≠ b.etld1 <;>
        simp [fuzzyDup, hv, hs, hd, hb, hsc, hbe]
  · intro hv hb
    have hiso : (some t).isNone = false := rfl
    by_cases hbb : a.brand = b.brand ∧ a.brand.length > 2
    · obtain ⟨hg1, hg2⟩ := hb hbb
      by_cases hsc : jw (normalizeEntityTitle a.name) (normalizeEntityTitle b.name) >
          ENTITY_JARO_THRESH
      · simp [fuzzyDup, hv, hiso, hbb, hg1, hg2, hsc]
      · by_cases hbe : a.brand ≠ b.brand ∧ a.etld1 ≠ b.etld1 <;>
          simp [fuzzyDup, hv, hiso, hbb, hg1, hg2, hsc, hbe]
    · by_cases hsc : jw (normalizeEntityTitle a.name) (normalizeEntityTitle b.name) >
          ENTITY_JARO_THRESH
      · simp [fuzzyDup, hv, hiso, hbb, hsc]
      · by_cases hbe : a.brand ≠ b.brand ∧ a.etld1 ≠ b.etld1 <;>
          simp [fuzzyDup, hv, hiso, hbb, hsc, hbe]

/-- C8 witness: distinct-brand rows with a similarity oracle scoring 1 are
duplicates in both modes. -/
theorem C8_name_similarity_thresholds_witness :
    fuzzyDup none (fun _ _ => 1) rowF1 rowF2 = .dup ∧
    fuzzyDup (some "movie") (fun _ _ => 1) rowF1 rowF2 = .dup := by
  have h := C8_name_similarity_thresholds (fun _ _ => 1) rowF1 rowF2 "movie"
  constructor
  · exact (h.2.1 (by decide) (by decide) (by decide) (by decide)).mpr (by decide)
  · exact (h.2.2 (by decide) (by decide)).mpr (by decide)

end DedupWebset

namespace DedupWebset

/-! ### Shared helper lemmas -/

/-- The canonicalizer keeps the raw item in the row. -/
theorem canonItem_raw (e : Option String) (p : String → UrlInfo) (u : String)
    (it : Item) : (canonItem e p u it).raw = it := rfl

/-- Deleting one key leaves lookups of other keys unchanged. -/
theorem lookup_mapDelete_ne {α : Type} (m : List (String × α)) (k k' : String)
    (h : k' ≠ k) : (mapDelete m k).lookup k' = m.lookup k' := by
  induction m with
  | nil => rfl
  | cons e tl ih =>
      by_cases he : e.1 = k
      · have hd : (decide (e.1 ≠ k)) = false := by simp [he]
        have hne : (k' == e.1) = false := by
          rw [he]
          exact beq_eq_false_iff_ne.mpr h
        have hdel : mapDelete (e :: tl) k = mapDelete tl k := by
          simp only [mapDelete, List.filter_cons, hd, Bool.false_eq_true, if_false]
        have hcons : List.lookup k' (e :: tl) = List.lookup k' tl := by
          simp [List.lookup, hne]
        rw [hdel, hcons, ih]
      · have hd : (decide (e.1 ≠ k)) = true := by simp [he]
        have hdel : mapDelete (e :: tl) k = e :: mapDelete tl k := by
          simp only [mapDelete, List.filter_cons, hd, if_true]
        rw [hdel]
        by_cases hk' : (k' == e.1) = true
        · simp [List.lookup, hk']
        · have hkf : (k' == e.1) = false := by simpa using hk'
          simp [List.lookup, hkf, ih]

/-- A string starting with the `item_` prefix is never empty. -/
theorem item_prefix_ne_empty (a b : String) : ("item_" ++ a ++ "_" ++ b) ≠ "" := by
  intro h
  have hlen := congrArg String.length h
  rw [String.length_append, String.length_append, String.length_append] at hlen
  have h5 : "item_".length = 5 := rfl
  have h1 : "_".length = 1 := rfl
  have h0 : "".length = 0 := rfl
  rw [h5, h1, h0] at hlen
  omega

/-! ### C1: company-mode tier-0 exact rejection -/

/-- C1.  In company mode (`entityType = none`), when the new item's tier-0
key `brand:etld1:subCls` is already present in the fingerprint table,
`_processItemSequentially` emits exactly one `rejected` event with reason
`exact_match` whose `existingItem` is the stored row's raw item, emits no
other event for the item, and leaves the engine state (in particular the
fingerprint table) unchanged. -/
theorem C1_company_tier0_exact_match (parse : String → UrlInfo)
    (jw : String → String → ℚ) (vhits : VecHits) (uuid : String) (st : DState)
    (wid : String) (item : Item) (ex : Row)
    (h : st.table.lookup (tierKey (canonItem none parse uuid item)) = some ex) :
    processItemSequentially none parse jw vhits uuid st wid item =
      (st, [broadcastRejection none item "exact_match"
        ("Exact key match: " ++ tierKey (canonItem none parse uuid item))
        (some ex.raw)]) := by
  unfold processItemSequentially
  simp [h, canonItem_raw]

/-- C1 witness: the second `apple.com` item of spec scenario S1 is rejected
against the stored first row. -/
theorem C1_company_tier0_exact_match_witness :
    processItemSequentially none parseW jw0 {} "u" stA "w" itemB =
      (stA, [broadcastRejection none itemB "exact_match"
        ("Exact key match: " ++ tierKey (canonItem none parseW "u" itemB))
        (some rowA.raw)]) :=
  C1_company_tier0_exact_match parseW jw0 {} "u" stA "w" itemB rowA (by decide)

/-! ### C4: idempotent ingest -/

/-- C4.  Re-ingesting an item whose id was already processed in the job is
a no-op: no events are emitted and the whole engine state (fingerprint
table, pending registry, LLM batch, processed sets) is unchanged. -/
theorem C4_reingest_noop (entityType : Option String) (parse : String → UrlInfo)
    (jw : String → String → ℚ) (vhits : VecHits) (nowTs : Nat)
    (uuidGen uuidCanon : String) (st : DState) (wid : String) (item : Item)
    (i : String) (h1 : truthyS item.id ∨ truthyS item.propsId)
    (h2 : jsOrS item.id item.propsId = some i)
    (h3 : st.processedIds.contains i) :
    ingest entityType parse jw vhits nowTs uuidGen uuidCanon st wid item =
      (st, []) := by
  have hgen : ¬ (truthyS item.id = false ∧ truthyS item.propsId = false) := by
    rcases h1 with h | h <;> simp [h]
  have h3m : i ∈ st.processedIds := by simpa using h3
  unfold ingest
  simp [hgen, h2, h3m]

/-- C4 witness: ingesting the already-processed id `a` leaves the state
untouched and emits nothing. -/
theorem C4_reingest_noop_witness :
    ingest none parseW jw0 {} 0 "u" "u" { processedIds := ["a"] } "w" itemA =
      ({ processedIds := ["a"] }, []) :=
  C4_reingest_noop none parseW jw0 {} 0 "u" "u" { processedIds := ["a"] } "w"
    itemA "a" (by decide) (by decide) (by decide)

/-! ### C7: `normalizedTitle` is not idempotent -/

/-- C7 counterexample: `normalizedTitle` is not idempotent — the
leading-article strip re-applies on `"The The Matrix"`. -/
theorem C7_counterexample :
    normalizeEntityTitle (normalizeEntityTitle "The The Matrix") ≠
      normalizeEntityTitle "The The Matrix" := by decide

/-- C7 amended.  `normalizedTitle` is not idempotent: each application can
strip one further leading article.  On `"The The Matrix"` one pass yields
`"the matrix"`, a second pass yields `"matrix"`, which is a fixed point. -/
theorem C7_title_normalization_not_idempotent :
    normalizeEntityTitle "The The Matrix" = "the matrix" ∧
    normalizeEntityTitle "the matrix" = "matrix" ∧
    normalizeEntityTitle "matrix" = "matrix" := by
  refine ⟨by decide, by decide, by decide⟩

/-! ### C6: the `video:` tier-0 key is computed but never used -/

/-- C6 evaluation at the failing input.  The canonicalizer marks both
YouTube items as video-platform rows and the `video:<slug>` keys of their
titles differ, yet company-mode processing rejects the second item as a
tier-0 `exact_match` under the shared `brand:etld1:subCls` key — `_canonItem`
computes the `video:` key into a local and discards it.  A same-slug item on
a *different* platform is conversely not caught by tier-0 (it is rejected by
the tier-1 fuzzy rule instead). -/
theorem C6_video_key_discarded :
    (canonItem none parseW "u" vItem1).isVideoPlatform = true ∧
    (canonItem none parseW "u" vItem2).isVideoPlatform = true ∧
    canonKey0 true (canonItem none parseW "u" vItem1).name "youtube" "youtube.com" "generic" ≠
      canonKey0 true (canonItem none parseW "u" vItem2).name "youtube" "youtube.com" "generic" ∧
    processItemSequentially none parseW jw0 {} "u" stV "w" vItem2 =
      (stV, [broadcastRejection none vItem2 "exact_match"
        ("Exact key match: youtube:youtube.com:generic") (some vItem1)]) ∧
    (processItemSequentially none parseW jwEq {} "u" stV "w" vItem3).2 =
      [broadcastRejection none vItem3 "high_similarity_match"
        ("Very similar to: Alpha") (some vItem1)] := by
  refine ⟨by decide, by decide, by decide, by decide, by decide⟩

/-! ### C10: generated ids -/

/-- C10.  When an ingested item lacks both `id` and `properties.id`, ingest
builds the id `item_<timestamp>_<first 8 uuid chars>` (a non-empty, truthy
string), records it in the processed-id set, and processes the item carrying
that id; assuming the generated id is fresh, processing proceeds as for any
identified item. -/
theorem C10_generated_id (entityType : Option String) (parse : String → UrlInfo)
    (jw : String → String → ℚ) (vhits : VecHits) (nowTs : Nat)
    (uuidGen uuidCanon : String) (st : DState) (wid : String) (item : Item)
    (h1 : ¬ truthyS item.id) (h2 : ¬ truthyS item.propsId)
    (h3 : ¬ st.processedIds.contains ("item_" ++ toString nowTs ++ "_" ++ uuidGen.take 8)) :
    ingest entityType parse jw vhits nowTs uuidGen uuidCanon st wid item =
      processItemSequentially entityType parse jw vhits uuidCanon
        { st with processedIds :=
            setAdd st.processedIds ("item_" ++ toString nowTs ++ "_" ++ uuidGen.take 8) }
        wid { item with id := some ("item_" ++ toString nowTs ++ "_" ++ uuidGen.take 8) } ∧
    truthyS (some ("item_" ++ toString nowTs ++ "_" ++ uuidGen.take 8)) = true ∧
    ({ item with id := some ("item_" ++ toString nowTs ++ "_" ++ uuidGen.take 8) } : Item).id =
      some ("item_" ++ toString nowTs ++ "_" ++ uuidGen.take 8) := by
  have htr : truthyS (some ("item_" ++ toString nowTs ++ "_" ++ uuidGen.take 8)) = true := by
    simp only [truthyS, ne_eq, decide_eq_true_eq]
    exact item_prefix_ne_empty _ _
  refine ⟨?_, htr, rfl⟩
  have hg1 : truthyS item.id = false := by simpa using h1
  have hg2 : truthyS item.propsId = false := by simpa using h2
  have h3m : ("item_" ++ toString nowTs ++ "_" ++ uuidGen.take 8) ∉ st.processedIds := by
    simpa using h3
  unfold ingest
  simp [hg1, hg2, jsOrS, htr, h3m]

/-- C10 witness: a concrete item with no ids receives
`item_7_abcdefgh` and is processed under it. -/
theorem C10_generated_id_witness :
    ingest none parseW jw0 {} 7 "abcdefgh-1234" "u" {} "w"
        { name := some "NoId Co", url := some "https://apple.com" } =
      processItemSequentially none parseW jw0 {} "u"
        { processedIds := ["item_7_abcdefgh"] } "w"
        { name := some "NoId Co", url := some "https://apple.com",
          id := some "item_7_abcdefgh" } ∧
    truthyS (some "item_7_abcdefgh") = true := by
  have h := C10_generated_id none parseW jw0 {} 7 "abcdefgh-1234" "u" {} "w"
    { name := some "NoId Co", url := some "https://apple.com" }
    (by decide) (by decide) (by decide)
  exact ⟨h.1, h.2.1⟩

/-! ### C5: LLM cache keys -/

/-- C5 counterexample.  With the pair `(rowX, itemY)` ambiguous and the
per-job cache holding `true` both under the sorted host-pair key and under
the sorted eTLD+1-pair key, company processing still emits `pending` and
stages another LLM decision — there is no `cache_hit` rejection. -/
theorem C5_counterexample :
    (processItemSequentially none parseW jw0 {} "u" stCache "w" itemY).2 =
      [Event.pending "y1"] ∧
    ((processItemSequentially none parseW jw0 {} "u" stCache "w" itemY).1.pending.lookup
      "y1").isSome = true ∧
    (processItemSequentially none parseW jw0 {} "u" stCache "w" itemY).1.batch.length =
      stCache.batch.length + 1 := by
  refine ⟨by decide, by decide, by decide⟩

/-- C5 amended.  A pair verdict stores its boolean under the sorted
host-pair key `sorted(host(urlA), host(urlB))`; the `_cacheHit` helper is
keyed by the sorted eTLD+1 pair instead; and no path of the current ingest
flow consults the cache at all — the events of company-mode processing are
independent of the cache contents, so a later ambiguous pair queues another
LLM decision rather than being rejected with `cache_hit`. -/
theorem C5_cache_store_and_unused_lookup (parse : String → UrlInfo)
    (jw : String → String → ℚ) (vhits : VecHits) (uuid : String)
    (hostOf : String → String) :
    (∀ (st : DState) (idA nameA urlA idB nameB urlB wid : String) (rawA : Item)
        (same : Bool),
      (confirmPending none parse uuid hostOf st
          (.pairD idA nameA urlA idB nameB urlB wid rawA) same).state.llmCache =
        mapSet st.llmCache (sortJoin (hostOf urlA) (hostOf urlB)) same) ∧
    (∀ (a b : Row) (cache : List (String × Bool)),
      cacheHit cache a b = true ↔
        cache.lookup (sortJoin a.etld1 b.etld1) = some true) ∧
    (∀ (st : DState) (c : List (String × Bool)) (wid : String) (item : Item),
      (processItemSequentially none parse jw vhits uuid
          { st with llmCache := c } wid item).2 =
        (processItemSequentially none parse jw vhits uuid st wid item).2) := by
  refine ⟨?_, ?_, ?_⟩
  · intro st idA nameA urlA idB nameB urlB wid rawA same
    cases same <;>
      simp [confirmPending, Decision.urlA, Decision.urlB, Decision.rawA,
        Decision.idA, hostFromUrlO, sortJoinOpt, accept]
  · intro a b cache
    simp [cacheHit]
  · intro st c wid item
    unfold processItemSequentially
    cases hlk : st.table.lookup (tierKey (canonItem none parse uuid item)) <;>
      · unfold processTier1
        cases hscan : fuzzyScan none jw (canonItem none parse uuid item)
            (mapValues st.table) <;>
          simp [hlk, hscan, apply_ite Prod.snd, accept, queueCompanyLLMDecision]

/-- C5 amended witness: storing a `true` pair verdict puts it under the
sorted host pair of the two URLs. -/
theorem C5_cache_store_witness :
    (confirmPending none parseW "u" id
        { table := [(tierKey rowX, rowX)] } decPair true).state.llmCache =
      mapSet [] (sortJoin "https://app.acme.com" "https://legal.acme.com") true := by
  have h := C5_cache_store_and_unused_lookup parseW jw0 {} "u" id
  exact h.1 { table := [(tierKey rowX, rowX)] } "pa" "Acme" "https://app.acme.com"
    "pb" "Acme HK" "https://legal.acme.com" "w" { id := some "pa", name := some "Acme" } true

/-! ### C3: subscriber replay -/

/-- C3 counterexample.  After S1 (item `a` accepted, item `b` rejected as
`exact_match`), a new subscriber's replay contains an `item` frame for the
*rejected* item `b` as well: the replay is the raw fetched-item list, not
the accepted items. -/
theorem C3_counterexample :
    (handleNewItems none parseW jw0 (fun _ => {}) 0 "ug" "u" "w" {} [itemA, itemB]).2 =
      [Event.statusEv "processing_items", Event.item itemA,
       broadcastRejection none itemB "exact_match"
         ("Exact key match: apple:apple.com:generic") (some itemA)] ∧
    subscribeEvents "w"
        (handleNewItems none parseW jw0 (fun _ => {}) 0 "ug" "u" "w" {} [itemA, itemB]).1 =
      [Event.connected "w", Event.item itemA, Event.item itemB] := by
  refine ⟨by decide, by decide⟩

/-- The broadcast-counting callback never touches the fetched-items list. -/
theorem countEvents_items (evs : List Event) : ∀ (s : ServerState),
    (countEvents s evs).items = s.items := by
  induction evs with
  | nil => intro s; rfl
  | cons e tl ih =>
      intro s
      cases e <;> simpa [countEvents] using ih _

/-- Processing one fetched item appends it to the job's raw item list
regardless of the dedup outcome. -/
theorem handleOneItem_items (entityType : Option String) (parse : String → UrlInfo)
    (jw : String → String → ℚ) (vhitsOf : Item → VecHits) (nowTs : Nat)
    (uuidGen uuidCanon : String) (wid : String) (s : ServerState) (it : Item) :
    (handleOneItem entityType parse jw vhitsOf nowTs uuidGen uuidCanon wid s it).1.items =
      s.items ++ [it] := by
  unfold handleOneItem
  rcases hi : ingest entityType parse jw (vhitsOf it) nowTs uuidGen uuidCanon
      s.dedupState wid it with ⟨d', evs⟩
  simp [hi, countEvents_items]

/-- C3 amended.  A new subscriber receives `connected` first and then one
`item` frame per entry of the job's fetched-item list, in fetch order —
this list gains every new upstream item regardless of whether the dedup
engine accepted or rejected it — and the subscriber is then registered for
the live stream. -/
theorem C3_replay_is_fetched_items (entityType : Option String)
    (parse : String → UrlInfo) (jw : String → String → ℚ)
    (vhitsOf : Item → VecHits) (nowTs : Nat) (uuidGen uuidCanon wid : String)
    (clientId : Nat) (s : ServerState) (pageItems : List Item) :
    subscribeEvents wid s = Event.connected wid :: s.items.map Event.item ∧
    (subscribe clientId s).clients = s.clients ++ [clientId] ∧
    (handleNewItems entityType parse jw vhitsOf nowTs uuidGen uuidCanon wid s
        pageItems).1.items =
      s.items ++ pageItems.filter
        (fun it => ¬ s.items.any (fun ex => ex.id = it.id)) := by
  refine ⟨rfl, rfl, ?_⟩
  unfold handleNewItems
  by_cases hn : (pageItems.filter
      (fun it => ¬ s.items.any (fun ex => ex.id = it.id))).isEmpty
  · rw [if_pos hn]
    have h0 : pageItems.filter (fun it => ¬ s.items.any (fun ex => ex.id = it.id)) = [] :=
      List.isEmpty_iff.mp hn
    rw [h0, List.append_nil]
  · rw [if_neg hn]
    have hfold : ∀ (l : List Item) (s0 : ServerState) (acc : List Event),
        (l.foldl
          (fun (a : ServerState × List Event) it =>
            let r := handleOneItem entityType parse jw vhitsOf nowTs uuidGen
              uuidCanon wid a.1 it
            (r.1, a.2 ++ r.2))
          (s0, acc)).1.items = s0.items ++ l := by
      intro l
      induction l with
      | nil => intro s0 acc; simp
      | cons x xs ih =>
          intro s0 acc
          have hx := handleOneItem_items entityType parse jw vhitsOf nowTs uuidGen
            uuidCanon wid s0 x
          rcases hr : handleOneItem entityType parse jw vhitsOf nowTs uuidGen
              uuidCanon wid s0 x with ⟨s1, evs1⟩
          rw [hr] at hx
          simp only [List.foldl_cons, hr]
          rw [ih s1 (acc ++ evs1), hx]
          simp
    simpa using hfold _ s []

/-! ### C2: LLM failure modes and short verdict lists -/

/-- Resolving an entity decision as unique never crashes and emits exactly
the accepted item followed by its `confirm`. -/
theorem confirmPending_entity_false (e : Option String) (parse : String → UrlInfo)
    (uuid : String) (hostOf : String → String) (st : DState) (d : Decision)
    (hd : d.isEntityD = true) :
    (confirmPending e parse uuid hostOf st d false).events = entityUniqueEvents d ∧
    (confirmPending e parse uuid hostOf st d false).crashed = false := by
  cases d with
  | entityD i n u s w r =>
      constructor
      · simp [confirmPending, accept, entityUniqueEvents, canonItem_raw]
      · simp [confirmPending, accept]
  | pairD a b c x y z w r => simp [Decision.isEntityD] at hd
  | companyD a b c x y s w r => simp [Decision.isEntityD] at hd

/-- The transport-error path resolves every entity decision of the batch as
unique, emitting one item-plus-confirm pair per decision. -/
theorem applyAllUnique_entity (e : Option String) (parse : String → UrlInfo)
    (uuid : String) (hostOf : String → String) :
    ∀ (batch : List Decision) (st : DState),
      (∀ d ∈ batch, d.isEntityD = true) →
      (applyAllUnique e parse uuid hostOf st batch).2 =
        batch.flatMap entityUniqueEvents := by
  intro batch
  induction batch with
  | nil => intro st h; rfl
  | cons p ps ih =>
      intro st h
      have hp := confirmPending_entity_false e parse uuid hostOf st p (h p (by simp))
      have hps : ∀ d ∈ ps, d.isEntityD = true := fun d hd => h d (by simp [hd])
      have ihs := ih (confirmPending e parse uuid hostOf st p false).state hps
      rcases happ : applyAllUnique e parse uuid hostOf
          (confirmPending e parse uuid hostOf st p false).state ps with ⟨st2, evs2⟩
      rw [happ] at ihs
      simp [applyAllUnique, happ, hp.1, ihs]

/-- The parse-failure path supplies one `[false]` verdict per batch entry,
so every entity decision of the batch is resolved as unique. -/
theorem applyVerdicts_entity_allFalse (e : Option String) (parse : String → UrlInfo)
    (uuid : String) (hostOf : String → String) :
    ∀ (batch : List Decision) (st : DState),
      (∀ d ∈ batch, d.isEntityD = true) →
      (applyVerdicts e parse uuid hostOf st
          (batch.map (fun _ => Verdict.varr [false])) batch).events =
        batch.flatMap entityUniqueEvents ∧
      (applyVerdicts e parse uuid hostOf st
          (batch.map (fun _ => Verdict.varr [false])) batch).crashed = false := by
  intro batch
  induction batch with
  | nil => intro st h; exact ⟨rfl, rfl⟩
  | cons p ps ih =>
      intro st h
      have hp := confirmPending_entity_false e parse uuid hostOf st p (h p (by simp))
      have hps : ∀ d ∈ ps, d.isEntityD = true := fun d hd => h d (by simp [hd])
      have ihs := ih (confirmPending e parse uuid hostOf st p false).state hps
      constructor
      · simp [applyVerdicts, verdictBool, hp.1, hp.2]
        simpa using ihs.1
      · simp [applyVerdicts, verdictBool, hp.2]
        simpa using ihs.2

/-- The verdict loop runs `i < verdicts.length` only: batch entries beyond
the verdict count are never visited. -/
theorem applyVerdicts_take (e : Option String) (parse : String → UrlInfo)
    (uuid : String) (hostOf : String → String) :
    ∀ (vs : List Verdict) (batch : List Decision) (st : DState),
      applyVerdicts e parse uuid hostOf st vs batch =
        applyVerdicts e parse uuid hostOf st vs (batch.take vs.length) := by
  intro vs
  induction vs with
  | nil => intro batch st; cases batch <;> rfl
  | cons v vs ih =>
      intro batch st
      cases batch with
      | nil => rfl
      | cons p ps =>
          have ht : (p :: ps).take (v :: vs).length = p :: ps.take vs.length := by
            simp
          rw [ht]
          simp only [applyVerdicts]
          rw [ih ps]

/-- C2 counterexample.  Flushing a two-entity batch against a parsed
response carrying a single verdict `[[false]]` resolves only the first
decision: the second decision gets no `confirm`, no `drop`, and stays in
the pending registry — it does not default to unique. -/
theorem C2_counterexample :
    (flushBatch (some "movie") parseW "u" id stBatch
        (.parsed (.arr [.varr [false]]) .absent)).crashed = false ∧
    Event.confirm (some { id := some "p2", name := some "N2" }) ∉
      (flushBatch (some "movie") parseW "u" id stBatch
        (.parsed (.arr [.varr [false]]) .absent)).events ∧
    Event.dropEv "p2" ∉
      (flushBatch (some "movie") parseW "u" id stBatch
        (.parsed (.arr [.varr [false]]) .absent)).events ∧
    ((flushBatch (some "movie") parseW "u" id stBatch
        (.parsed (.arr [.varr [false]]) .absent)).state.pending.lookup "p2") =
      some decE2 := by
  refine ⟨by decide, by decide, by decide, by decide⟩

/-- C2 amended.  For an entity batch: a transport error or a JSON parse
failure resolves *every* decision of the batch as unique — one accepted
`item` plus `confirm` per decision, no crash; but when the parsed response
carries fewer verdicts than the batch has entries, the verdict loop stops
at the verdict count, so the surplus batch entries are never resolved at
all (they do not default to unique). -/
theorem C2_llm_failure_modes (e : Option String) (parse : String → UrlInfo)
    (uuid : String) (hostOf : String → String) (st : DState)
    (hEnt : ∀ d ∈ st.batch, d.isEntityD = true) :
    ((flushBatch e parse uuid hostOf st .transportErr).events =
        st.batch.flatMap entityUniqueEvents ∧
      (flushBatch e parse uuid hostOf st .transportErr).crashed = false) ∧
    ((flushBatch e parse uuid hostOf st .parseFail).events =
        st.batch.flatMap entityUniqueEvents ∧
      (flushBatch e parse uuid hostOf st .parseFail).crashed = false) ∧
    (∀ (vs : List Verdict) (batch : List Decision) (st0 : DState),
      applyVerdicts e parse uuid hostOf st0 vs batch =
        applyVerdicts e parse uuid hostOf st0 vs (batch.take vs.length)) := by
  refine ⟨?_, ?_, applyVerdicts_take e parse uuid hostOf⟩
  · by_cases hb : st.batch.isEmpty
    · have h0 : st.batch = [] := List.isEmpty_iff.mp hb
      simp [flushBatch, hb, h0]
    · have hall := applyAllUnique_entity e parse uuid hostOf st.batch
        { st with batch := [] } hEnt
      rcases happ : applyAllUnique e parse uuid hostOf { st with batch := [] }
          st.batch with ⟨st2, evs2⟩
      rw [happ] at hall
      constructor
      · simp [flushBatch, hb, happ, hall]
      · simp [flushBatch, hb, happ]
  · by_cases hb : st.batch.isEmpty
    · have h0 : st.batch = [] := List.isEmpty_iff.mp hb
      simp [flushBatch, hb, h0]
    · have hav := applyVerdicts_entity_allFalse e parse uuid hostOf st.batch
        { st with batch := [] } hEnt
      constructor
      · simp [flushBatch, hb]
        simpa using hav.1
      · simp [flushBatch, hb]
        simpa using hav.2

/-- C2 amended witness: the two-entity fixture batch under a transport
error emits item-plus-confirm for both decisions. -/
theorem C2_llm_failure_modes_witness :
    (∀ d ∈ stBatch.batch, d.isEntityD = true) ∧
    (flushBatch (some "movie") parseW "u" id stBatch .transportErr).events =
      stBatch.batch.flatMap entityUniqueEvents :=
  ⟨by decide,
    ((C2_llm_failure_modes (some "movie") parseW "u" id stBatch (by decide)).1).1⟩

end DedupWebset
